import Mathlib

/-!
Verification development for the sales-synchronization / purchase-planning
service (`test-syncVentas`).  JavaScript source functions are embedded as
executable Lean definitions: numbers handled by `parseFloat` arithmetic are
modelled as `ℚ` (the persisted columns are SQLite `REAL`), database tables as
lists of rows, and the JS `||` fallback chains via explicit truthiness helpers
(`""` and `0` are falsy, absent fields are `none`).
-/

namespace SyncVentas

/-- JS `a || b` for string-valued fields: `none` (absent) and `""` are falsy. -/
def jsOrS (a b : Option String) : Option String :=
  match a with
  | some s => if s = "" then b else some s
  | none => b

/-- JS `a || b` for numeric fields with a numeric default: `none` and `0` are falsy. -/
def jsOrQ (a : Option ℚ) (b : ℚ) : ℚ :=
  match a with
  | some q => if q = 0 then b else q
  | none => b

/-- JS truthiness of a string-valued expression (`undefined` and `""` are falsy). -/
def truthyS (o : Option String) : Bool :=
  match o with
  | some s => s != ""
  | none => false

/-- Value of an optional string, `""` when absent (JS `(x || '')`). -/
def valS (o : Option String) : String := o.getD ""

/-- JS `Math.round`: round to nearest integer, ties toward positive infinity. -/
def jsRound (q : ℚ) : ℤ := ⌊q + 1/2⌋

/-- JS `parseFloat(x.toFixed(2))`: round to two decimal places (ties toward +∞,
matching `toFixed`, which picks the larger candidate on a tie). -/
def round2 (q : ℚ) : ℚ := (jsRound (q * 100) : ℚ) / 100

/-- Substring test: `s.includes(pat)` on character lists. -/
def strHasSub (s pat : String) : Bool :=
  s.data.tails.any (fun t => pat.data.isPrefixOf t)

/-- Embeds `toLowerCase()` as a character-list map (kernel-executable form of
`String.toLower`). -/
def toLowerStr (s : String) : String := ⟨s.data.map Char.toLower⟩

/-- Embeds `trim()`: drop leading and trailing whitespace (kernel-executable form of
`String.trim`). -/
def trimStr (s : String) : String :=
  ⟨((s.data.dropWhile Char.isWhitespace).reverse.dropWhile Char.isWhitespace).reverse⟩

/-!
## Document extraction

One line item of a raw ERP sales document.  The extractors probe many field
aliases, so the row type carries every alias probed by
`extractProductsFromDocument` (src/public/app.js) and
`extractProductosFromFAVE` (src/services/faveService.js); a field the ERP did
not send is `none`.  String-typed SKU aliases model the ERP codes (the FAVE
extractor's `.toString()` is then the identity); numeric aliases carry the
value `parseFloat` produces.
-/

structure DetalleItem where
  codigo : Option String := none
  cod_prod : Option String := none
  codigo_prod : Option String := none
  cod_art : Option String := none
  sku : Option String := none
  cod_producto : Option String := none
  cod : Option String := none
  cantidad : Option ℚ := none
  cant : Option ℚ := none
  quantity : Option ℚ := none
  monto_neto : Option ℚ := none
  neto : Option ℚ := none
  precio_neto : Option ℚ := none
  monto : Option ℚ := none
  total : Option ℚ := none
  precio_unitario : Option ℚ := none
  precio_unit : Option ℚ := none
  unit_price : Option ℚ := none
  precio : Option ℚ := none
deriving DecidableEq

/-- A raw sales document.  The line-item collection may live under several
field names; a present field is modelled as an array of items (the source's
coercion branches for non-array / keyed-object payloads concern malformed
responses outside this model's input space). -/
structure Documento where
  detalles : Option (List DetalleItem) := none
  detalle : Option (List DetalleItem) := none
  items : Option (List DetalleItem) := none
  productos : Option (List DetalleItem) := none
  line_items : Option (List DetalleItem) := none
deriving DecidableEq

/-- One extracted `{sku, cantidad, montoNeto}` tuple. -/
structure ProductoVenta where
  sku : String
  cantidad : ℚ
  montoNeto : ℚ
deriving DecidableEq

/-- Embeds `document.detalles || document.detalle || document.items || []`
(src/public/app.js line 407; a present empty array is truthy in JS, hence
first-`some` resolution). -/
def appDetails (doc : Documento) : List DetalleItem :=
  ((doc.detalles <|> doc.detalle) <|> doc.items).getD []

/-- Embeds `item.codigo || item.cod_prod || item.codigo_prod || item.cod_art || item.sku`
(src/public/app.js line 415). -/
def appSku (it : DetalleItem) : Option String :=
  jsOrS it.codigo (jsOrS it.cod_prod (jsOrS it.codigo_prod (jsOrS it.cod_art it.sku)))

/-- Embeds `parseFloat(item.cantidad || item.cant || 0)` (src/public/app.js line 416). -/
def appCantidad (it : DetalleItem) : ℚ :=
  jsOrQ it.cantidad (jsOrQ it.cant 0)

/-- Embeds `montoNeto` resolution of src/public/app.js lines 418-423: direct fields
first, then `precio_unitario * cantidad` when the direct chain gave `0` and a
truthy `precio_unitario` exists. -/
def appMontoNeto (it : DetalleItem) (cantidad : ℚ) : ℚ :=
  let m := jsOrQ it.monto_neto (jsOrQ it.neto (jsOrQ it.precio_neto 0))
  if m = 0 then
    match it.precio_unitario with
    | some p => if p = 0 then m else p * cantidad
    | none => m
  else m

/-- Loop body of `extractProductsFromDocument` (src/public/app.js lines
413-432): push `{sku, cantidad, montoNeto}` when `sku && cantidad !== 0`. -/
def appStep (acc : List ProductoVenta) (it : DetalleItem) : List ProductoVenta :=
  let sku := appSku it
  let cantidad := appCantidad it
  let montoNeto := appMontoNeto it cantidad
  if truthyS sku && (cantidad != 0) then
    acc ++ [⟨valS sku, cantidad, montoNeto⟩]
  else acc

/-- Embeds `extractProductsFromDocument` (src/public/app.js lines 403-435). -/
def extractProductsFromDocument (doc : Documento) : List ProductoVenta :=
  (appDetails doc).foldl appStep []

/-- Line-item collection resolution of `extractProductosFromFAVE`
(src/services/faveService.js lines 516-535): `detalles` when present,
otherwise `detalle || items || productos || line_items || []`. -/
def faveDetails (doc : Documento) : List DetalleItem :=
  match doc.detalles with
  | some l => l
  | none => (((doc.detalle <|> doc.items) <|> doc.productos) <|> doc.line_items).getD []

/-- Embeds `(detalle.codigo || detalle.codigo_prod || detalle.cod_producto || detalle.cod
|| detalle.sku || '').toString().trim()` (src/services/faveService.js lines 551-556). -/
def faveSku (it : DetalleItem) : String :=
  (valS (jsOrS it.codigo (jsOrS it.codigo_prod (jsOrS it.cod_producto (jsOrS it.cod it.sku))))).trim

/-- Embeds `parseFloat(detalle.cant || detalle.cantidad || detalle.quantity || 0)`
(src/services/faveService.js lines 558-561). -/
def faveCantidad (it : DetalleItem) : ℚ :=
  jsOrQ it.cant (jsOrQ it.cantidad (jsOrQ it.quantity 0))

/-- Embeds `montoNeto` resolution of src/services/faveService.js lines 563-578:
`precioUnitario * cantidad`, falling back to a direct field when that product
is `0` and a truthy direct field exists. -/
def faveMontoNeto (it : DetalleItem) (cantidad : ℚ) : ℚ :=
  let precioUnitario := jsOrQ it.precio_unitario (jsOrQ it.precio_unit (jsOrQ it.unit_price (jsOrQ it.precio 0)))
  let m := precioUnitario * cantidad
  if m = 0 && (truthyQ it.monto_neto || truthyQ it.monto || truthyQ it.total) then
    jsOrQ it.monto_neto (jsOrQ it.monto (jsOrQ it.total 0))
  else m
where
  /-- JS truthiness of a numeric field. -/
  truthyQ (o : Option ℚ) : Bool :=
    match o with
    | some q => q != 0
    | none => false

/-- Loop body of `extractProductosFromFAVE` (src/services/faveService.js lines
542-587): push when `sku && cantidad > 0`. -/
def faveStep (acc : List ProductoVenta) (it : DetalleItem) : List ProductoVenta :=
  let sku := faveSku it
  let cantidad := faveCantidad it
  let montoNeto := faveMontoNeto it cantidad
  if (sku != "") && decide (0 < cantidad) then
    acc ++ [⟨sku, cantidad, montoNeto⟩]
  else acc

/-- Embeds `extractProductosFromFAVE` (src/services/faveService.js lines 507-590). -/
def extractProductosFromFAVE (doc : Documento) : List ProductoVenta :=
  (faveDetails doc).foldl faveStep []

/-!
### Claim C1
-/

/-- Keep-or-discard decision the app.js extractor applies to one line item:
kept exactly when a SKU alias resolves truthy and the quantity is not exactly
zero (negative quantities pass). -/
def appItemKept (it : DetalleItem) : Option ProductoVenta :=
  if truthyS (appSku it) && (appCantidad it != 0) then
    some ⟨valS (appSku it), appCantidad it, appMontoNeto it (appCantidad it)⟩
  else none

/-- Keep-or-discard decision the FAVE extractor applies to one line item:
kept exactly when the resolved SKU is nonempty and the quantity is strictly
positive — zero AND negative quantities are both discarded. -/
def faveItemKept (it : DetalleItem) : Option ProductoVenta :=
  if (faveSku it != "") && decide (0 < faveCantidad it) then
    some ⟨faveSku it, faveCantidad it, faveMontoNeto it (faveCantidad it)⟩
  else none

theorem appStep_eq_push (acc : List ProductoVenta) (it : DetalleItem) :
    appStep acc it = acc ++ (appItemKept it).toList := by
  by_cases hk : (truthyS (appSku it) && (appCantidad it != 0)) = true <;>
    simp [appStep, appItemKept, hk]

theorem faveStep_eq_push (acc : List ProductoVenta) (it : DetalleItem) :
    faveStep acc it = acc ++ (faveItemKept it).toList := by
  by_cases hk : ((faveSku it != "") && decide (0 < faveCantidad it)) = true <;>
    simp [faveStep, faveItemKept, hk]

theorem foldl_push_filterMap (g : List ProductoVenta → DetalleItem → List ProductoVenta)
    (f : DetalleItem → Option ProductoVenta)
    (hg : ∀ acc it, g acc it = acc ++ (f it).toList)
    (l : List DetalleItem) (acc : List ProductoVenta) :
    l.foldl g acc = acc ++ l.filterMap f := by
  induction l generalizing acc with
  | nil => simp
  | cons it rest ih =>
    rw [List.foldl_cons, hg, ih]
    cases h : f it with
    | none => simp [h]
    | some pv => simp [h]

theorem extractProductsFromDocument_eq_filterMap (doc : Documento) :
    extractProductsFromDocument doc = (appDetails doc).filterMap appItemKept := by
  unfold extractProductsFromDocument
  rw [foldl_push_filterMap appStep appItemKept appStep_eq_push]
  rfl

theorem extractProductosFromFAVE_eq_filterMap (doc : Documento) :
    extractProductosFromFAVE doc = (faveDetails doc).filterMap faveItemKept := by
  unfold extractProductosFromFAVE
  rw [foldl_push_filterMap faveStep faveItemKept faveStep_eq_push]
  rfl

/-- C1 (amended).  The two document extractors apply different discard rules:
`extractProductsFromDocument` (src/public/app.js) keeps a line item exactly
when a SKU alias resolves truthy and the quantity is not exactly zero, so
negative return/credit-note quantities are kept and contribute their negative
values; `extractProductosFromFAVE` (src/services/faveService.js) keeps a line
item exactly when its resolved SKU is nonempty and the quantity is strictly
positive, so it discards negative quantities as well as zero. -/
theorem c1_extractor_discard_rules (doc : Documento) :
    extractProductsFromDocument doc = (appDetails doc).filterMap appItemKept ∧
    extractProductosFromFAVE doc = (faveDetails doc).filterMap faveItemKept ∧
    (∀ it ∈ appDetails doc, truthyS (appSku it) = true → appCantidad it < 0 →
      ⟨valS (appSku it), appCantidad it, appMontoNeto it (appCantidad it)⟩
        ∈ extractProductsFromDocument doc) ∧
    (∀ it ∈ faveDetails doc, faveCantidad it ≤ 0 → faveItemKept it = none) := by
  refine ⟨extractProductsFromDocument_eq_filterMap doc,
    extractProductosFromFAVE_eq_filterMap doc, ?_, ?_⟩
  · intro it hmem htruthy hneg
    rw [extractProductsFromDocument_eq_filterMap]
    apply List.mem_filterMap.mpr
    refine ⟨it, hmem, ?_⟩
    unfold appItemKept
    have hne : (appCantidad it != 0) = true := by
      simp only [bne_iff_ne, ne_eq]
      exact fun h => absurd h (by rw [h] at hneg; exact absurd hneg (lt_irrefl 0))
    simp [htruthy, hne]
  · intro it _ hle
    unfold faveItemKept
    have : decide (0 < faveCantidad it) = false := by
      simp only [decide_eq_false_iff_not, not_lt]
      exact hle
    simp [this]

/-- A concrete credit-note line item: SKU `"A"`, quantity `-2`,
unit price `10`. -/
def itemDevolucion : DetalleItem :=
  { codigo := some "A", cant := some (-2), precio_unitario := some 10 }

/-- A document holding the single credit-note line item. -/
def devolucionDoc : Documento :=
  { detalles := some [itemDevolucion] }

/-- C1 witness: the negative-quantity line item of `devolucionDoc` satisfies
the keep conditions of the app.js extractor and is indeed extracted. -/
theorem c1_extractor_discard_rules_witness :
    (⟨valS (appSku itemDevolucion), appCantidad itemDevolucion,
      appMontoNeto itemDevolucion (appCantidad itemDevolucion)⟩ : ProductoVenta)
      ∈ extractProductsFromDocument devolucionDoc :=
  (c1_extractor_discard_rules devolucionDoc).2.2.1 itemDevolucion
    (by simp [appDetails, devolucionDoc]) (by decide)
    (by norm_num [appCantidad, itemDevolucion, jsOrQ])

/-- C1 counterexample.  On the document `devolucionDoc`, whose single line item
has a resolvable SKU and nonzero (negative) quantity, the claim requires every
document extractor to keep the item; `extractProductsFromDocument` does keep it
(with its negative quantity), but `extractProductosFromFAVE` returns the empty
list, discarding the return/credit-note line. -/
theorem c1_counterexample :
    extractProductsFromDocument devolucionDoc = [⟨"A", -2, -20⟩] ∧
    extractProductosFromFAVE devolucionDoc = [] ∧
    truthyS (appSku { codigo := some "A", cant := some (-2), precio_unitario := some 10 }) = true ∧
    appCantidad { codigo := some "A", cant := some (-2), precio_unitario := some 10 } ≠ 0 := by
  refine ⟨?_, ?_, by decide, by norm_num [appCantidad, jsOrQ]⟩
  · norm_num [extractProductsFromDocument, devolucionDoc, itemDevolucion, appDetails,
      appStep, appSku, appCantidad, appMontoNeto, jsOrS, jsOrQ, truthyS, valS]
    simp
  · norm_num [extractProductosFromFAVE, devolucionDoc, itemDevolucion, faveDetails,
      faveStep, faveSku, faveCantidad, faveMontoNeto, jsOrS, jsOrQ, valS]

/-!
## Relational store

Rows of the four Prisma tables used by the core (`productos`,
`ventas_historicas`, `ventas_actuales`, `pedidos`), without the bookkeeping
columns (`created_at`, `updated_at`, and the surrogate `id` of non-product
rows, which the code only uses to address a row it just looked up by its
business key).  `nextProductoId` models the SQLite autoincrement counter.
-/

structure Producto where
  id : Nat
  sku : String
  descripcion : String
  familia : String
deriving DecidableEq

structure VentaHistorica where
  productoId : Nat
  ano : Int
  mes : Int
  cantidadVendida : ℚ
  montoNeto : ℚ
deriving DecidableEq

structure VentaActual where
  productoId : Nat
  cantidadVendida : ℚ
  stockActual : ℚ
  montoNeto : ℚ
deriving DecidableEq

structure Pedido where
  productoId : Nat
  ano : Int
  mes : Int
  cantidad : ℚ
deriving DecidableEq

@[ext]
structure DB where
  productos : List Producto
  ventasHistoricas : List VentaHistorica
  ventasActuales : List VentaActual
  pedidos : List Pedido
  nextProductoId : Nat
deriving DecidableEq

/-- Embeds `prisma.producto.findUnique({ where: { sku } })`. -/
def findProducto (ps : List Producto) (sku : String) : Option Producto :=
  ps.find? (fun p => p.sku == sku)

/-- The unique key `productoId_ano_mes` of `ventas_historicas`. -/
def matchVH (pid : Nat) (a m : Int) (v : VentaHistorica) : Bool :=
  v.productoId == pid && (v.ano == a && v.mes == m)

/-- Embeds `prisma.ventaHistorica.findUnique({ where: { productoId_ano_mes } })`. -/
def findVentaHistorica (vs : List VentaHistorica) (pid : Nat) (a m : Int) :
    Option VentaHistorica :=
  vs.find? (matchVH pid a m)

/-- Embeds `prisma.ventaHistorica.update` at the unique key, setting
`cantidadVendida` and `montoNeto`. -/
def replaceVentaHistorica (vs : List VentaHistorica) (pid : Nat) (a m : Int)
    (c mo : ℚ) : List VentaHistorica :=
  vs.map (fun v => if matchVH pid a m v then { v with cantidadVendida := c, montoNeto := mo } else v)

/-- Embeds `prisma.ventaHistorica.upsert` with replace semantics (update sets the
fields to `c`/`mo`, create inserts them) — the shape used by the rotation
engine (src/services/rotacionService.js lines 54-73) and by
`upsertMonthlySale` when `accumulate` is false. -/
def upsertVentaHistorica (vs : List VentaHistorica) (pid : Nat) (a m : Int)
    (c mo : ℚ) : List VentaHistorica :=
  match findVentaHistorica vs pid a m with
  | some _ => replaceVentaHistorica vs pid a m c mo
  | none => vs ++ [⟨pid, a, m, c, mo⟩]

/-- Embeds `prisma.ventaActual.update({ where: { productoId } , data: { cantidadVendida: 0,
montoNeto: 0 } })` — reset sales, keep `stockActual`
(src/services/rotacionService.js lines 76-83). -/
def resetVentaActual (vs : List VentaActual) (pid : Nat) : List VentaActual :=
  vs.map (fun v => if v.productoId == pid then { v with cantidadVendida := 0, montoNeto := 0 } else v)

/-- One iteration of the rotation loop (src/services/rotacionService.js lines
51-90): upsert the historical row at the current `(ano, mes)` with the current
month's accumulation, then reset that product's `ventaActual` row. -/
def rotarStep (a m : Int) (d : DB) (va : VentaActual) : DB :=
  { d with
    ventasHistoricas := upsertVentaHistorica d.ventasHistoricas va.productoId a m
      va.cantidadVendida va.montoNeto,
    ventasActuales := resetVentaActual d.ventasActuales va.productoId }

/-- Embeds `rotarVentasActualesAHistoricas` (src/services/rotacionService.js lines
28-100): iterate the rotation loop over the snapshot of `ventasActuales`
fetched before the transaction (the early return on an empty snapshot is the
empty fold). -/
def rotarVentasActualesAHistoricas (a m : Int) (db : DB) : DB :=
  db.ventasActuales.foldl (rotarStep a m) db

/-- Embeds `limpiarDatosAntiguos` (src/services/rotacionService.js lines 105-150):
`fechaLimite = subMonths(new Date(ano, mes - 1, 1), 12)`, i.e. the same month
of the previous year, then `deleteMany` of every `ventaHistorica` and `pedido`
with `ano < anoLimite` or (`ano = anoLimite` and `mes < mesLimite`). -/
def limpiarDatosAntiguos (a m : Int) (db : DB) : DB :=
  let anoLimite := a - 1
  let mesLimite := m
  { db with
    ventasHistoricas := db.ventasHistoricas.filter
      (fun v => !(decide (v.ano < anoLimite ∨ (v.ano = anoLimite ∧ v.mes < mesLimite)))),
    pedidos := db.pedidos.filter
      (fun p => !(decide (p.ano < anoLimite ∨ (p.ano = anoLimite ∧ p.mes < mesLimite)))) }

/-!
### Lemmas about the keyed-table primitives
-/

theorem matchVH_true_iff (pid : Nat) (a m : Int) (v : VentaHistorica) :
    matchVH pid a m v = true ↔ v.productoId = pid ∧ v.ano = a ∧ v.mes = m := by
  simp [matchVH]

theorem matchVH_update (pid : Nat) (a m : Int) (v : VentaHistorica) (c mo : ℚ) :
    matchVH pid a m ({ v with cantidadVendida := c, montoNeto := mo }) = matchVH pid a m v := by
  rfl

theorem find?_replaceVentaHistorica_self (vs : List VentaHistorica) (pid : Nat)
    (a m : Int) (c mo : ℚ) (hsome : (findVentaHistorica vs pid a m).isSome) :
    findVentaHistorica (replaceVentaHistorica vs pid a m c mo) pid a m
      = some ⟨pid, a, m, c, mo⟩ := by
  unfold findVentaHistorica replaceVentaHistorica at *
  induction vs with
  | nil => simp at hsome
  | cons w rest ih =>
    by_cases hw : matchVH pid a m w = true
    · obtain ⟨h1, h2, h3⟩ := (matchVH_true_iff pid a m w).mp hw
      rw [List.map_cons, if_pos hw, List.find?_cons, matchVH_update, hw]
      cases w
      simp_all
    · rw [List.find?_cons] at hsome
      rw [Bool.not_eq_true] at hw
      rw [hw] at hsome
      rw [List.map_cons, hw, if_neg (by simp), List.find?_cons, hw]
      exact ih hsome

theorem find?_replaceVentaHistorica_other (vs : List VentaHistorica)
    (pid pid' : Nat) (a m : Int) (c mo : ℚ) (hne : pid' ≠ pid) :
    findVentaHistorica (replaceVentaHistorica vs pid' a m c mo) pid a m
      = findVentaHistorica vs pid a m := by
  unfold findVentaHistorica replaceVentaHistorica
  induction vs with
  | nil => rfl
  | cons w rest ih =>
    by_cases hw : matchVH pid' a m w = true
    · have hwp : w.productoId = pid' := ((matchVH_true_iff pid' a m w).mp hw).1
      have hno : matchVH pid a m w = false := by
        rw [Bool.eq_false_iff, Ne, matchVH_true_iff]
        rintro ⟨h1, -, -⟩; exact hne ((hwp.symm.trans h1))
      rw [List.map_cons, if_pos hw, List.find?_cons, matchVH_update, hno,
        List.find?_cons, hno]
      exact ih
    · rw [List.map_cons, if_neg hw, List.find?_cons, List.find?_cons]
      cases hpw : matchVH pid a m w with
      | true => rfl
      | false => exact ih

theorem findVentaHistorica_upsert_self (vs : List VentaHistorica) (pid : Nat)
    (a m : Int) (c mo : ℚ) :
    findVentaHistorica (upsertVentaHistorica vs pid a m c mo) pid a m
      = some ⟨pid, a, m, c, mo⟩ := by
  unfold upsertVentaHistorica
  cases hf : findVentaHistorica vs pid a m with
  | some v =>
    exact find?_replaceVentaHistorica_self vs pid a m c mo (by rw [hf]; rfl)
  | none =>
    unfold findVentaHistorica at hf ⊢
    rw [List.find?_append, hf]
    simp [matchVH]

theorem findVentaHistorica_upsert_other (vs : List VentaHistorica)
    (pid pid' : Nat) (a m : Int) (c mo : ℚ) (hne : pid' ≠ pid) :
    findVentaHistorica (upsertVentaHistorica vs pid' a m c mo) pid a m
      = findVentaHistorica vs pid a m := by
  unfold upsertVentaHistorica
  cases hf : findVentaHistorica vs pid' a m with
  | some v => exact find?_replaceVentaHistorica_other vs pid pid' a m c mo hne
  | none =>
    unfold findVentaHistorica
    rw [List.find?_append]
    have : matchVH pid a m ⟨pid', a, m, c, mo⟩ = false := by
      rw [Bool.eq_false_iff, Ne, matchVH_true_iff]
      rintro ⟨h1, -, -⟩; exact hne h1
    simp [this]

theorem resetVentaActual_map_productoId (vs : List VentaActual) (pid : Nat) :
    (resetVentaActual vs pid).map (·.productoId) = vs.map (·.productoId) := by
  unfold resetVentaActual
  rw [List.map_map]
  apply List.map_congr_left
  intro v _
  simp only [Function.comp_apply]
  by_cases h : (v.productoId == pid) = true
  · rw [if_pos h]
  · rw [if_neg h]

theorem resetVentaActual_mem_other (vs : List VentaActual) (pid : Nat)
    (va : VentaActual) (hmem : va ∈ vs) (hne : va.productoId ≠ pid) :
    va ∈ resetVentaActual vs pid := by
  unfold resetVentaActual
  have : (fun v => if v.productoId == pid then
      { v with cantidadVendida := 0, montoNeto := 0 } else v) va = va := by
    simp [hne]
  exact this ▸ List.mem_map_of_mem _ hmem

theorem find?_resetVentaActual_self (vs : List VentaActual) (va : VentaActual)
    (hmem : va ∈ vs) (hnd : (vs.map (·.productoId)).Nodup) :
    (resetVentaActual vs va.productoId).find? (fun v => v.productoId == va.productoId)
      = some ⟨va.productoId, 0, va.stockActual, 0⟩ := by
  unfold resetVentaActual
  induction vs with
  | nil => simp at hmem
  | cons w rest ih =>
    rw [List.map_cons, List.nodup_cons] at hnd
    by_cases hw : (w.productoId == va.productoId) = true
    · have hwp : w.productoId = va.productoId := by simpa using hw
      have hweq : w = va := by
        rcases List.mem_cons.mp hmem with h | h
        · exact h.symm
        · exact absurd (hwp ▸ List.mem_map_of_mem (·.productoId) h) hnd.1
      rw [List.map_cons, if_pos hw, List.find?_cons]
      have hp2 : (({ w with cantidadVendida := 0, montoNeto := 0 } : VentaActual).productoId
          == va.productoId) = true := by simpa using hw
      rw [hp2]
      subst hweq
      cases w
      rfl
    · have hvm : va ∈ rest := by
        rcases List.mem_cons.mp hmem with h | h
        · subst h
          exact absurd (by simp) hw
        · exact h
      rw [List.map_cons, if_neg hw, List.find?_cons]
      have hw' : (w.productoId == va.productoId) = false := Bool.not_eq_true _ ▸ hw
      rw [hw']
      exact ih hvm hnd.2

theorem find?_resetVentaActual_other (vs : List VentaActual) (pid pid' : Nat)
    (hne : pid' ≠ pid) :
    (resetVentaActual vs pid').find? (fun v => v.productoId == pid)
      = vs.find? (fun v => v.productoId == pid) := by
  unfold resetVentaActual
  induction vs with
  | nil => rfl
  | cons w rest ih =>
    by_cases hw : (w.productoId == pid') = true
    · have hwp : w.productoId = pid' := by simpa using hw
      have h1 : (w.productoId == pid) = false := by simp [hwp, hne]
      have h2 : (({ w with cantidadVendida := 0, montoNeto := 0 } : VentaActual).productoId
          == pid) = false := by simp [hwp, hne]
      rw [List.map_cons, if_pos hw, List.find?_cons, h2, List.find?_cons, h1]
      exact ih
    · rw [List.map_cons, if_neg hw, List.find?_cons, List.find?_cons]
      cases hpw : (w.productoId == pid) with
      | true => rfl
      | false => exact ih

/-!
### Claim C2
-/

theorem rotarStep_map_productoId (a m : Int) (d : DB) (va : VentaActual) :
    (rotarStep a m d va).ventasActuales.map (·.productoId)
      = d.ventasActuales.map (·.productoId) := by
  unfold rotarStep
  exact resetVentaActual_map_productoId _ _

theorem rotarFold_map_productoId (a m : Int) (l : List VentaActual) (d : DB) :
    (l.foldl (rotarStep a m) d).ventasActuales.map (·.productoId)
      = d.ventasActuales.map (·.productoId) := by
  induction l generalizing d with
  | nil => rfl
  | cons w rest ih => rw [List.foldl_cons, ih, rotarStep_map_productoId]

theorem rotarFold_mem_other (a m : Int) (l : List VentaActual) (d : DB)
    (va : VentaActual) (hmem : va ∈ d.ventasActuales)
    (hne : va.productoId ∉ l.map (·.productoId)) :
    va ∈ (l.foldl (rotarStep a m) d).ventasActuales := by
  induction l generalizing d with
  | nil => exact hmem
  | cons w rest ih =>
    rw [List.map_cons] at hne
    rw [List.foldl_cons]
    exact ih _ (resetVentaActual_mem_other _ _ _ hmem (fun h => hne (h ▸ List.mem_cons_self _ _)))
      (fun h => hne (List.mem_cons_of_mem _ h))

theorem rotarFold_preserva (a m : Int) (l : List VentaActual) (d : DB)
    (pid : Nat) (hne : pid ∉ l.map (·.productoId)) :
    findVentaHistorica (l.foldl (rotarStep a m) d).ventasHistoricas pid a m
        = findVentaHistorica d.ventasHistoricas pid a m ∧
    (l.foldl (rotarStep a m) d).ventasActuales.find? (fun v => v.productoId == pid)
        = d.ventasActuales.find? (fun v => v.productoId == pid) := by
  induction l generalizing d with
  | nil => exact ⟨rfl, rfl⟩
  | cons w rest ih =>
    rw [List.map_cons] at hne
    rw [List.foldl_cons]
    have hwne : w.productoId ≠ pid := fun h => hne (h ▸ List.mem_cons_self _ _)
    obtain ⟨ih1, ih2⟩ := ih (rotarStep a m d w) (fun h => hne (List.mem_cons_of_mem _ h))
    constructor
    · rw [ih1]
      exact findVentaHistorica_upsert_other _ _ _ _ _ _ _ hwne
    · rw [ih2]
      exact find?_resetVentaActual_other _ _ _ hwne

/-- C2.  `rotate()` transfers each product's current-month accumulation
exactly once: for every `ventaActual` row with quantity Q and amount M
(product ids unique, as enforced by the table's unique key), after
`rotarVentasActualesAHistoricas` the historical row keyed at the current
`(ano, mes)` holds exactly Q and M — whatever value it held before, it is
replaced, not accumulated — and the `ventaActual` row is reset to quantity 0
and amount 0 with `stockActual` unchanged. -/
theorem c2_rotacion_transfiere_exactamente (a m : Int) (db : DB)
    (va : VentaActual) (hmem : va ∈ db.ventasActuales)
    (hnd : (db.ventasActuales.map (·.productoId)).Nodup) :
    findVentaHistorica (rotarVentasActualesAHistoricas a m db).ventasHistoricas
        va.productoId a m
      = some ⟨va.productoId, a, m, va.cantidadVendida, va.montoNeto⟩ ∧
    (rotarVentasActualesAHistoricas a m db).ventasActuales.find?
        (fun v => v.productoId == va.productoId)
      = some ⟨va.productoId, 0, va.stockActual, 0⟩ := by
  obtain ⟨l1, l2, hsplit⟩ := List.append_of_mem hmem
  have hnd' := hnd
  rw [hsplit, List.map_append, List.map_cons, List.nodup_append] at hnd'
  obtain ⟨hnd1, hnd2, hdisj⟩ := hnd'
  rw [List.nodup_cons] at hnd2
  have hnotl1 : va.productoId ∉ l1.map (·.productoId) :=
    fun h => hdisj h (List.mem_cons_self _ _)
  have hnotl2 : va.productoId ∉ l2.map (·.productoId) := hnd2.1
  unfold rotarVentasActualesAHistoricas
  rw [hsplit, List.foldl_append, List.foldl_cons]
  set d1 := l1.foldl (rotarStep a m) db with hd1
  have hva_d1 : va ∈ d1.ventasActuales := rotarFold_mem_other a m l1 db va hmem hnotl1
  have hpids_d1 : (d1.ventasActuales.map (·.productoId)).Nodup := by
    rw [hd1, rotarFold_map_productoId]; exact hnd
  -- the step that processes `va` establishes both facts
  have hhist : findVentaHistorica (rotarStep a m d1 va).ventasHistoricas va.productoId a m
      = some ⟨va.productoId, a, m, va.cantidadVendida, va.montoNeto⟩ :=
    findVentaHistorica_upsert_self _ _ _ _ _ _
  have hact : (rotarStep a m d1 va).ventasActuales.find? (fun v => v.productoId == va.productoId)
      = some ⟨va.productoId, 0, va.stockActual, 0⟩ :=
    find?_resetVentaActual_self _ _ hva_d1 hpids_d1
  -- the remaining iterations touch other product ids only
  obtain ⟨hp1, hp2⟩ := rotarFold_preserva a m l2 (rotarStep a m d1 va) va.productoId hnotl2
  exact ⟨hp1.trans hhist, hp2.trans hact⟩

/-- C2 witness: a store holding one product (id 1) with current-month quantity
7, amount 70, stock 3, and a pre-existing historical row at the rotation month
holding 99/99; rotation replaces the 99s with exactly 7/70 and resets the
current row keeping stock 3. -/
theorem c2_rotacion_witness :
    findVentaHistorica (rotarVentasActualesAHistoricas 2026 10
        ⟨[⟨1, "A", "d", "f"⟩], [⟨1, 2026, 10, 99, 99⟩], [⟨1, 7, 3, 70⟩], [], 2⟩).ventasHistoricas
        1 2026 10
      = some ⟨1, 2026, 10, 7, 70⟩ ∧
    (rotarVentasActualesAHistoricas 2026 10
        ⟨[⟨1, "A", "d", "f"⟩], [⟨1, 2026, 10, 99, 99⟩], [⟨1, 7, 3, 70⟩], [], 2⟩).ventasActuales.find?
        (fun v => v.productoId == 1)
      = some ⟨1, 0, 3, 0⟩ :=
  c2_rotacion_transfiere_exactamente 2026 10
    ⟨[⟨1, "A", "d", "f"⟩], [⟨1, 2026, 10, 99, 99⟩], [⟨1, 7, 3, 70⟩], [], 2⟩
    ⟨1, 7, 3, 70⟩ (by simp) (by simp)

/-!
### Claim C8
-/

/-- C8.  After `limpiarDatosAntiguos` runs with current month `(a, m)`
(m between 1 and 12), a `ventaHistorica` or `pedido` row with a valid month is
kept exactly when it is at most 12 months old: a row dated exactly 12 months
before `(a, m)` — month index `12a + m − 12` — satisfies the bound and
survives, while every row dated 13 or more months before fails it and is
deleted; the deletion test compares the year first and then the month. -/
theorem c8_prune_retencion (db : DB) (a m : Int) (h1 : 1 ≤ m) (h2 : m ≤ 12) :
    (∀ v : VentaHistorica, 1 ≤ v.mes → v.mes ≤ 12 →
      (v ∈ (limpiarDatosAntiguos a m db).ventasHistoricas ↔
        v ∈ db.ventasHistoricas ∧ 12 * a + m - 12 ≤ 12 * v.ano + v.mes)) ∧
    (∀ p : Pedido, 1 ≤ p.mes → p.mes ≤ 12 →
      (p ∈ (limpiarDatosAntiguos a m db).pedidos ↔
        p ∈ db.pedidos ∧ 12 * a + m - 12 ≤ 12 * p.ano + p.mes)) := by
  constructor
  · intro v hv1 hv2
    unfold limpiarDatosAntiguos
    simp only [List.mem_filter, Bool.not_eq_true', decide_eq_false_iff_not]
    constructor
    · rintro ⟨hm, hp⟩
      exact ⟨hm, by omega⟩
    · rintro ⟨hm, hp⟩
      exact ⟨hm, by omega⟩
  · intro p hp1 hp2
    unfold limpiarDatosAntiguos
    simp only [List.mem_filter, Bool.not_eq_true', decide_eq_false_iff_not]
    constructor
    · rintro ⟨hm, hp⟩
      exact ⟨hm, by omega⟩
    · rintro ⟨hm, hp⟩
      exact ⟨hm, by omega⟩

/-- C8 witness: with current month October 2026, the historical row dated
October 2025 (exactly 12 months before) is retained and the one dated
September 2025 (13 months before) is deleted; same for order lines. -/
theorem c8_prune_witness :
    (⟨1, 2025, 10, 5, 50⟩ : VentaHistorica) ∈ (limpiarDatosAntiguos 2026 10
        ⟨[], [⟨1, 2025, 10, 5, 50⟩, ⟨1, 2025, 9, 4, 40⟩], [], [⟨1, 2025, 9, 2⟩], 2⟩).ventasHistoricas ∧
    (⟨1, 2025, 9, 4, 40⟩ : VentaHistorica) ∉ (limpiarDatosAntiguos 2026 10
        ⟨[], [⟨1, 2025, 10, 5, 50⟩, ⟨1, 2025, 9, 4, 40⟩], [], [⟨1, 2025, 9, 2⟩], 2⟩).ventasHistoricas ∧
    (⟨1, 2025, 9, 2⟩ : Pedido) ∉ (limpiarDatosAntiguos 2026 10
        ⟨[], [⟨1, 2025, 10, 5, 50⟩, ⟨1, 2025, 9, 4, 40⟩], [], [⟨1, 2025, 9, 2⟩], 2⟩).pedidos := by
  have h := c8_prune_retencion
    ⟨[], [⟨1, 2025, 10, 5, 50⟩, ⟨1, 2025, 9, 4, 40⟩], [], [⟨1, 2025, 9, 2⟩], 2⟩
    2026 10 (by norm_num) (by norm_num)
  refine ⟨?_, ?_, ?_⟩
  · exact (h.1 ⟨1, 2025, 10, 5, 50⟩ (by norm_num) (by norm_num)).mpr
      ⟨by simp, by norm_num⟩
  · intro hmem
    have := (h.1 ⟨1, 2025, 9, 4, 40⟩ (by norm_num) (by norm_num)).mp hmem
    norm_num at this
  · intro hmem
    have := (h.2 ⟨1, 2025, 9, 2⟩ (by norm_num) (by norm_num)).mp hmem
    norm_num at this

/-!
## Monthly sync engine (src/scripts/syncDaily.js)

The ERP fetch + aggregation stage produces a JS `Map<sku, {cantidad,
montoNeto}>`; sync functions receive it as an association list in iteration
order (JS map keys are unique, hence the `Nodup` hypotheses below).
-/

/-- Per-SKU aggregated sales total. -/
structure VentaAgregada where
  cantidad : ℚ
  montoNeto : ℚ
deriving DecidableEq

/-- Embeds `upsertMonthlySale` (src/scripts/syncDaily.js lines 118-154): update the
existing row — adding when `accumulate`, replacing otherwise — or create it. -/
def upsertMonthlySale (db : DB) (productoId : Nat) (a m : Int)
    (cantidad montoNeto : ℚ) (accumulate : Bool) : DB :=
  match findVentaHistorica db.ventasHistoricas productoId a m with
  | some existing =>
    let c' := if accumulate then existing.cantidadVendida + cantidad else cantidad
    let mo' := if accumulate then existing.montoNeto + montoNeto else montoNeto
    { db with ventasHistoricas := replaceVentaHistorica db.ventasHistoricas productoId a m c' mo' }
  | none =>
    { db with ventasHistoricas := db.ventasHistoricas ++ [⟨productoId, a, m, cantidad, montoNeto⟩] }

/-- Embeds `prisma.producto.create`: the new row takes the autoincrement id. -/
def createProducto (db : DB) (sku descripcion familia : String) : Producto × DB :=
  let p : Producto := ⟨db.nextProductoId, sku, descripcion, familia⟩
  (p, { db with productos := db.productos ++ [p],
                nextProductoId := db.nextProductoId + 1 })

/-- Loop body shared by `syncDaySales` (src/scripts/syncDaily.js lines 84-103,
`accumulate = true` for existing products) and `syncFullMonth` (lines 172-186,
`accumulate = false`): look the SKU up, auto-create a placeholder product when
absent (the create branch calls `upsertMonthlySale` without the `accumulate`
argument, i.e. `false`), then upsert the monthly row. -/
def syncSaleStep (accumulate : Bool) (a m : Int) (db : DB)
    (sale : String × VentaAgregada) : DB :=
  match findProducto db.productos sale.1 with
  | none =>
    let pdb := createProducto db sale.1 "Producto nuevo (auto-creado)" ""
    upsertMonthlySale pdb.2 pdb.1.id a m sale.2.cantidad sale.2.montoNeto false
  | some p => upsertMonthlySale db p.id a m sale.2.cantidad sale.2.montoNeto accumulate

/-- Embeds `syncDaySales` (src/scripts/syncDaily.js lines 67-113) applied to the
day's aggregated sales: accumulate into the day's `(year, month)` rows. -/
def syncDaySales (a m : Int) (sales : List (String × VentaAgregada)) (db : DB) : DB :=
  sales.foldl (syncSaleStep true a m) db

/-- Embeds `syncFullMonth` (src/scripts/syncDaily.js lines 159-196) applied to the
month's aggregated sales: replace the month's rows. -/
def syncFullMonth (a m : Int) (sales : List (String × VentaAgregada)) (db : DB) : DB :=
  sales.foldl (syncSaleStep false a m) db

/-- First loop body of `syncCurrentMonthData` (src/scripts/syncDaily.js lines
242-260): create a `ventaActual` row for an aggregated sale, skipping the sale
entirely when its SKU has no local product (`if (!producto) continue`); the
row's stock is `stockMap.get(sku) || 0`. -/
def currentSaleStep (stockMap : List (String × ℚ)) (d : DB)
    (sale : String × VentaAgregada) : DB :=
  match findProducto d.productos sale.1 with
  | none => d
  | some p =>
    let stockActual := ((stockMap.find? (fun e => e.1 == sale.1)).map (·.2)).getD 0
    { d with ventasActuales :=
        d.ventasActuales ++ [⟨p.id, sale.2.cantidad, stockActual, sale.2.montoNeto⟩] }

/-- Second loop body of `syncCurrentMonthData` (src/scripts/syncDaily.js lines
263-281): add a zero-sales row for a stocked product not already processed,
again skipping unknown SKUs. -/
def currentStockStep (monthlySales : List (String × VentaAgregada)) (d : DB)
    (skuStock : String × ℚ) : DB :=
  if monthlySales.any (fun sale => sale.1 == skuStock.1) then d
  else match findProducto d.productos skuStock.1 with
    | none => d
    | some p =>
      { d with ventasActuales := d.ventasActuales ++ [⟨p.id, 0, skuStock.2, 0⟩] }

/-- Embeds `syncCurrentMonthData` (src/scripts/syncDaily.js lines 201-289): delete
every `ventaActual` row (`deleteMany({})`), recreate one row per aggregated
SKU that has a local product, then add zero-sales rows for products having
stock but no sales this month.  `monthlySales` is the month-to-yesterday
aggregation, `stockMap` the live stock snapshot. -/
def syncCurrentMonthData (monthlySales : List (String × VentaAgregada))
    (stockMap : List (String × ℚ)) (db : DB) : DB :=
  let db1 := { db with ventasActuales := [] }
  let db2 := monthlySales.foldl (currentSaleStep stockMap) db1
  stockMap.foldl (currentStockStep monthlySales) db2

/-- Well-formedness the SQLite schema guarantees: product ids are below the
autoincrement counter and unique, and historical rows reference allocated ids. -/
structure DBWF (db : DB) : Prop where
  idBound : ∀ p ∈ db.productos, p.id < db.nextProductoId
  idsNodup : (db.productos.map (·.id)).Nodup
  histBound : ∀ v ∈ db.ventasHistoricas, v.productoId < db.nextProductoId

/-- The sale `s` is fully recorded at `(a, m)`: its SKU resolves to a product
whose historical row at `(a, m)` exists and holds exactly the aggregated
quantity and amount. -/
def Registrada (db : DB) (a m : Int) (s : String × VentaAgregada) : Prop :=
  ∃ p, findProducto db.productos s.1 = some p ∧
    (findVentaHistorica db.ventasHistoricas p.id a m).isSome ∧
    ∀ v ∈ db.ventasHistoricas, matchVH p.id a m v = true →
      v.cantidadVendida = s.2.cantidad ∧ v.montoNeto = s.2.montoNeto

/-- The sale `s` was recorded against a freshly auto-created placeholder
product: exactly one product row carries its SKU, that row has the placeholder
description, and the `(a, m)` historical row holds the aggregated values. -/
def CreadaConVenta (db : DB) (a m : Int) (s : String × VentaAgregada) : Prop :=
  ∃ p, findProducto db.productos s.1 = some p ∧
    p.descripcion = "Producto nuevo (auto-creado)" ∧ p.familia = "" ∧
    db.productos.countP (fun q => q.sku == s.1) = 1 ∧
    (findVentaHistorica db.ventasHistoricas p.id a m).isSome ∧
    ∀ v ∈ db.ventasHistoricas, matchVH p.id a m v = true →
      v.cantidadVendida = s.2.cantidad ∧ v.montoNeto = s.2.montoNeto

/-!
### Table-level lemmas for the sync engine
-/

theorem replaceVentaHistorica_map_productoId (vs : List VentaHistorica)
    (pid : Nat) (a m : Int) (c mo : ℚ) :
    (replaceVentaHistorica vs pid a m c mo).map (·.productoId) = vs.map (·.productoId) := by
  unfold replaceVentaHistorica
  rw [List.map_map]
  apply List.map_congr_left
  intro v _
  simp only [Function.comp_apply]
  by_cases h : matchVH pid a m v = true
  · rw [if_pos h]
  · rw [if_neg h]

theorem upsertMonthlySale_productos (db : DB) (pid : Nat) (a m : Int)
    (c mo : ℚ) (acc : Bool) :
    (upsertMonthlySale db pid a m c mo acc).productos = db.productos := by
  unfold upsertMonthlySale
  cases findVentaHistorica db.ventasHistoricas pid a m <;> rfl

theorem upsertMonthlySale_nextId (db : DB) (pid : Nat) (a m : Int)
    (c mo : ℚ) (acc : Bool) :
    (upsertMonthlySale db pid a m c mo acc).nextProductoId = db.nextProductoId := by
  unfold upsertMonthlySale
  cases findVentaHistorica db.ventasHistoricas pid a m <;> rfl

theorem upsertMonthlySale_ventasActuales (db : DB) (pid : Nat) (a m : Int)
    (c mo : ℚ) (acc : Bool) :
    (upsertMonthlySale db pid a m c mo acc).ventasActuales = db.ventasActuales := by
  unfold upsertMonthlySale
  cases findVentaHistorica db.ventasHistoricas pid a m <;> rfl

theorem upsertMonthlySale_pedidos (db : DB) (pid : Nat) (a m : Int)
    (c mo : ℚ) (acc : Bool) :
    (upsertMonthlySale db pid a m c mo acc).pedidos = db.pedidos := by
  unfold upsertMonthlySale
  cases findVentaHistorica db.ventasHistoricas pid a m <;> rfl

/-- Fact: `upsertMonthlySale` is an `upsertVentaHistorica` at some effective values,
which are the given ones whenever `accumulate` is false. -/
theorem upsertMonthlySale_eq_upsert (db : DB) (pid : Nat) (a m : Int)
    (c mo : ℚ) (acc : Bool) :
    ∃ c' mo', (upsertMonthlySale db pid a m c mo acc).ventasHistoricas
        = upsertVentaHistorica db.ventasHistoricas pid a m c' mo' ∧
      (acc = false → c' = c ∧ mo' = mo) := by
  unfold upsertMonthlySale upsertVentaHistorica
  cases hf : findVentaHistorica db.ventasHistoricas pid a m with
  | some e =>
    refine ⟨if acc then e.cantidadVendida + c else c,
      if acc then e.montoNeto + mo else mo, rfl, ?_⟩
    rintro rfl
    simp
  | none => exact ⟨c, mo, rfl, fun _ => ⟨rfl, rfl⟩⟩

theorem mem_upsertVentaHistorica_values (vs : List VentaHistorica) (pid : Nat)
    (a m : Int) (c mo : ℚ) (v : VentaHistorica)
    (hmem : v ∈ upsertVentaHistorica vs pid a m c mo)
    (hv : matchVH pid a m v = true) :
    v.cantidadVendida = c ∧ v.montoNeto = mo := by
  unfold upsertVentaHistorica at hmem
  cases hf : findVentaHistorica vs pid a m with
  | some e =>
    rw [hf] at hmem
    unfold replaceVentaHistorica at hmem
    obtain ⟨w, -, hw⟩ := List.mem_map.mp hmem
    by_cases hmw : matchVH pid a m w = true
    · rw [if_pos hmw] at hw
      rw [← hw]
      exact ⟨rfl, rfl⟩
    · rw [if_neg hmw] at hw
      exact absurd (hw ▸ hv) hmw
  | none =>
    rw [hf] at hmem
    rcases List.mem_append.mp hmem with h | h
    · exact absurd hv (by
        have := List.find?_eq_none.mp hf v h
        simpa using this)
    · rcases List.mem_singleton.mp h with rfl
      exact ⟨rfl, rfl⟩

theorem mem_upsertVentaHistorica_other (vs : List VentaHistorica)
    (pid pid' : Nat) (a m : Int) (c mo : ℚ) (hne : pid' ≠ pid)
    (P : VentaHistorica → Prop)
    (hall : ∀ v ∈ vs, matchVH pid a m v = true → P v) :
    ∀ v ∈ upsertVentaHistorica vs pid' a m c mo, matchVH pid a m v = true → P v := by
  intro v hmem hv
  unfold upsertVentaHistorica at hmem
  cases hf : findVentaHistorica vs pid' a m with
  | some e =>
    rw [hf] at hmem
    unfold replaceVentaHistorica at hmem
    obtain ⟨w, hwmem, hw⟩ := List.mem_map.mp hmem
    by_cases hmw : matchVH pid' a m w = true
    · rw [if_pos hmw] at hw
      have h1 : v.productoId = pid := ((matchVH_true_iff pid a m v).mp hv).1
      have h2 : w.productoId = pid' := ((matchVH_true_iff pid' a m w).mp hmw).1
      have hwv : w.productoId = v.productoId := by rw [← hw]
      refine absurd ?_ hne
      rw [← h2, hwv, h1]
    · rw [if_neg hmw] at hw
      exact hall v (hw ▸ hwmem) hv
  | none =>
    rw [hf] at hmem
    rcases List.mem_append.mp hmem with h | h
    · exact hall v h hv
    · rcases List.mem_singleton.mp h with rfl
      exact absurd (((matchVH_true_iff pid a m _).mp hv).1 : pid' = pid) hne

theorem upsertVentaHistorica_map_bound (vs : List VentaHistorica) (pid : Nat)
    (a m : Int) (c mo : ℚ) (n : Nat) (hpid : pid < n)
    (hall : ∀ v ∈ vs, v.productoId < n) :
    ∀ v ∈ upsertVentaHistorica vs pid a m c mo, v.productoId < n := by
  intro v hmem
  unfold upsertVentaHistorica at hmem
  cases hf : findVentaHistorica vs pid a m with
  | some e =>
    rw [hf] at hmem
    unfold replaceVentaHistorica at hmem
    obtain ⟨w, hwmem, hw⟩ := List.mem_map.mp hmem
    by_cases hmw : matchVH pid a m w = true
    · rw [if_pos hmw] at hw
      rw [← hw]
      exact hall w hwmem
    · rw [if_neg hmw] at hw
      exact hw ▸ hall w hwmem
  | none =>
    rw [hf] at hmem
    rcases List.mem_append.mp hmem with h | h
    · exact hall v h
    · rcases List.mem_singleton.mp h with rfl
      exact hpid

theorem findProducto_append_none_eq (ps : List Producto) (q : Producto)
    (sku : String) (hq : q.sku ≠ sku) :
    findProducto (ps ++ [q]) sku = findProducto ps sku := by
  unfold findProducto
  rw [List.find?_append]
  have : (fun p => p.sku == sku) q = false := by simpa using hq
  cases hfp : ps.find? (fun p => p.sku == sku) with
  | some p => rfl
  | none => simp [this]

theorem findProducto_append_self (ps : List Producto) (q : Producto)
    (hnone : findProducto ps q.sku = none) :
    findProducto (ps ++ [q]) q.sku = some q := by
  unfold findProducto at *
  rw [List.find?_append, hnone]
  simp

/-- The products a sync step appends all carry the step's SKU. -/
theorem syncSaleStep_productos (acc : Bool) (a m : Int) (db : DB)
    (s : String × VentaAgregada) :
    (syncSaleStep acc a m db s).productos = db.productos ∨
    (syncSaleStep acc a m db s).productos
      = db.productos ++ [⟨db.nextProductoId, s.1, "Producto nuevo (auto-creado)", ""⟩] := by
  unfold syncSaleStep
  cases hf : findProducto db.productos s.1 with
  | none =>
    right
    rw [upsertMonthlySale_productos]
    rfl
  | some p =>
    left
    exact upsertMonthlySale_productos ..

theorem syncSaleStep_nextId (acc : Bool) (a m : Int) (db : DB)
    (s : String × VentaAgregada) :
    (syncSaleStep acc a m db s).nextProductoId = db.nextProductoId ∨
    (syncSaleStep acc a m db s).nextProductoId = db.nextProductoId + 1 := by
  unfold syncSaleStep
  cases hf : findProducto db.productos s.1 with
  | none =>
    right
    rw [upsertMonthlySale_nextId]
    rfl
  | some p =>
    left
    exact upsertMonthlySale_nextId ..

theorem syncSaleStep_nextId_mono (acc : Bool) (a m : Int) (db : DB)
    (s : String × VentaAgregada) :
    db.nextProductoId ≤ (syncSaleStep acc a m db s).nextProductoId := by
  rcases syncSaleStep_nextId acc a m db s with h | h <;> omega

theorem syncSaleStep_wf (acc : Bool) (a m : Int) (db : DB)
    (s : String × VentaAgregada) (hwf : DBWF db) :
    DBWF (syncSaleStep acc a m db s) := by
  unfold syncSaleStep
  cases hf : findProducto db.productos s.1 with
  | some p =>
    refine ⟨?_, ?_, ?_⟩
    · rw [upsertMonthlySale_productos, upsertMonthlySale_nextId]
      exact hwf.idBound
    · rw [upsertMonthlySale_productos]
      exact hwf.idsNodup
    · intro v hv
      rw [upsertMonthlySale_nextId]
      obtain ⟨c', mo', heq, -⟩ := upsertMonthlySale_eq_upsert db p.id a m
        s.2.cantidad s.2.montoNeto acc
      rw [heq] at hv
      refine upsertVentaHistorica_map_bound db.ventasHistoricas p.id a m c' mo'
        db.nextProductoId ?_ hwf.histBound v hv
      exact hwf.idBound p (List.mem_of_find?_eq_some hf)
  | none =>
    show DBWF (upsertMonthlySale (createProducto db s.1 "Producto nuevo (auto-creado)" "").2
      db.nextProductoId a m s.2.cantidad s.2.montoNeto false)
    have hppr : (upsertMonthlySale (createProducto db s.1 "Producto nuevo (auto-creado)" "").2
        db.nextProductoId a m s.2.cantidad s.2.montoNeto false).productos
        = db.productos ++ [⟨db.nextProductoId, s.1, "Producto nuevo (auto-creado)", ""⟩] := by
      rw [upsertMonthlySale_productos]; rfl
    have hnid : (upsertMonthlySale (createProducto db s.1 "Producto nuevo (auto-creado)" "").2
        db.nextProductoId a m s.2.cantidad s.2.montoNeto false).nextProductoId
        = db.nextProductoId + 1 := by
      rw [upsertMonthlySale_nextId]; rfl
    refine ⟨?_, ?_, ?_⟩
    · rw [hppr, hnid]
      intro p hp
      rcases List.mem_append.mp hp with h | h
      · exact Nat.lt_succ_of_lt (hwf.idBound p h)
      · rcases List.mem_singleton.mp h with rfl
        exact Nat.lt_succ_self _
    · rw [hppr, List.map_append]
      simp only [List.map_cons, List.map_nil]
      rw [List.nodup_append]
      refine ⟨hwf.idsNodup, List.nodup_singleton _, ?_⟩
      intro x hx hx'
      rcases List.mem_singleton.mp hx' with rfl
      obtain ⟨p, hp, hpid⟩ := List.mem_map.mp hx
      exact absurd hpid (Nat.ne_of_lt (hwf.idBound p hp))
    · intro v hv
      rw [hnid]
      obtain ⟨c', mo', heq, -⟩ := upsertMonthlySale_eq_upsert
        (createProducto db s.1 "Producto nuevo (auto-creado)" "").2
        db.nextProductoId a m s.2.cantidad s.2.montoNeto false
      rw [heq] at hv
      refine upsertVentaHistorica_map_bound _ db.nextProductoId a m c' mo'
        (db.nextProductoId + 1) (Nat.lt_succ_self _) ?_ v hv
      intro w hw
      exact Nat.lt_succ_of_lt (hwf.histBound w hw)

theorem syncFold_wf (acc : Bool) (a m : Int) (l : List (String × VentaAgregada))
    (db : DB) (hwf : DBWF db) :
    DBWF (l.foldl (syncSaleStep acc a m) db) := by
  induction l generalizing db with
  | nil => exact hwf
  | cons s rest ih => exact ih _ (syncSaleStep_wf acc a m db s hwf)

theorem syncSaleStep_find_other (acc : Bool) (a m : Int) (db : DB)
    (s : String × VentaAgregada) (sku : String) (hne : s.1 ≠ sku) :
    findProducto (syncSaleStep acc a m db s).productos sku
      = findProducto db.productos sku := by
  rcases syncSaleStep_productos acc a m db s with h | h
  · rw [h]
  · rw [h]
    exact findProducto_append_none_eq db.productos _ sku hne

/-!
### Establishment and preservation of recorded sales
-/

/-- A replace-mode (`accumulate = false`) upsert leaves the `(pid, a, m)` row
present and holding exactly the written values. -/
theorem upsertMonthlySale_registra (db : DB) (pid : Nat) (a m : Int) (c mo : ℚ) :
    (findVentaHistorica (upsertMonthlySale db pid a m c mo false).ventasHistoricas pid a m).isSome ∧
    ∀ v ∈ (upsertMonthlySale db pid a m c mo false).ventasHistoricas,
      matchVH pid a m v = true → v.cantidadVendida = c ∧ v.montoNeto = mo := by
  obtain ⟨c', mo', heq, hval⟩ := upsertMonthlySale_eq_upsert db pid a m c mo false
  obtain ⟨rfl, rfl⟩ := hval rfl
  rw [heq]
  constructor
  · rw [findVentaHistorica_upsert_self]
    rfl
  · exact fun v hv => mem_upsertVentaHistorica_values db.ventasHistoricas pid a m c' mo' v hv

/-- The historical table after a sync step is an upsert at the id of the
step's own product (found or freshly created). -/
theorem syncSaleStep_hist (acc : Bool) (a m : Int) (d : DB)
    (s : String × VentaAgregada) :
    ∃ pid' c' mo',
      (syncSaleStep acc a m d s).ventasHistoricas
        = upsertVentaHistorica d.ventasHistoricas pid' a m c' mo' ∧
      ((findProducto d.productos s.1 = none → pid' = d.nextProductoId) ∧
       (∀ q, findProducto d.productos s.1 = some q → pid' = q.id)) := by
  unfold syncSaleStep
  cases hf : findProducto d.productos s.1 with
  | none =>
    obtain ⟨c', mo', heq, -⟩ := upsertMonthlySale_eq_upsert
      (createProducto d s.1 "Producto nuevo (auto-creado)" "").2
      d.nextProductoId a m s.2.cantidad s.2.montoNeto false
    exact ⟨d.nextProductoId, c', mo', heq, fun _ => rfl,
      fun q hq => Option.noConfusion hq⟩
  | some p =>
    obtain ⟨c', mo', heq, -⟩ := upsertMonthlySale_eq_upsert d p.id a m
      s.2.cantidad s.2.montoNeto acc
    exact ⟨p.id, c', mo', heq, fun h => Option.noConfusion h,
      fun q hq => (Option.some.inj hq) ▸ rfl⟩

/-- A sync step for a different SKU does not disturb a product's find result,
its `(a, m)` historical row, nor any property of the rows at that key. -/
theorem syncSaleStep_preserva (acc : Bool) (a m : Int) (d : DB)
    (s' : String × VentaAgregada) (sku : String) (p : Producto)
    (P : VentaHistorica → Prop)
    (hwf : DBWF d) (hne : s'.1 ≠ sku)
    (hfind : findProducto d.productos sku = some p)
    (hvals : ∀ v ∈ d.ventasHistoricas, matchVH p.id a m v = true → P v) :
    findProducto (syncSaleStep acc a m d s').productos sku = some p ∧
    findVentaHistorica (syncSaleStep acc a m d s').ventasHistoricas p.id a m
      = findVentaHistorica d.ventasHistoricas p.id a m ∧
    ∀ v ∈ (syncSaleStep acc a m d s').ventasHistoricas,
      matchVH p.id a m v = true → P v := by
  obtain ⟨pid', c', mo', heq, hnonecase, hsomecase⟩ := syncSaleStep_hist acc a m d s'
  have hpmem : p ∈ d.productos := List.mem_of_find?_eq_some hfind
  have hpsku : p.sku = sku := by
    have := List.find?_some hfind
    simpa using this
  have hpidne : pid' ≠ p.id := by
    cases hf : findProducto d.productos s'.1 with
    | none =>
      rw [hnonecase hf]
      exact Nat.ne_of_gt (hwf.idBound p hpmem)
    | some q =>
      rw [hsomecase q hf]
      intro hqp
      have hqmem : q ∈ d.productos := List.mem_of_find?_eq_some hf
      have hqsku : q.sku = s'.1 := by
        have := List.find?_some hf
        simpa using this
      have : q = p := List.inj_on_of_nodup_map hwf.idsNodup hqmem hpmem hqp
      exact hne (by rw [← hqsku, this, hpsku])
  refine ⟨?_, ?_, ?_⟩
  · rw [syncSaleStep_find_other acc a m d s' sku hne]
    exact hfind
  · rw [heq]
    exact findVentaHistorica_upsert_other d.ventasHistoricas p.id pid' a m c' mo' hpidne
  · rw [heq]
    exact mem_upsertVentaHistorica_other d.ventasHistoricas p.id pid' a m c' mo' hpidne P hvals

/-- Folding sync steps whose SKUs all differ preserves a recorded sale's
product, historical row and row values. -/
theorem syncFold_preserva (acc : Bool) (a m : Int)
    (l : List (String × VentaAgregada)) (d : DB)
    (sku : String) (p : Producto) (P : VentaHistorica → Prop)
    (hwf : DBWF d) (hne : sku ∉ l.map Prod.fst)
    (hfind : findProducto d.productos sku = some p)
    (hsome : (findVentaHistorica d.ventasHistoricas p.id a m).isSome)
    (hvals : ∀ v ∈ d.ventasHistoricas, matchVH p.id a m v = true → P v) :
    findProducto (l.foldl (syncSaleStep acc a m) d).productos sku = some p ∧
    (findVentaHistorica (l.foldl (syncSaleStep acc a m) d).ventasHistoricas p.id a m).isSome ∧
    ∀ v ∈ (l.foldl (syncSaleStep acc a m) d).ventasHistoricas,
      matchVH p.id a m v = true → P v := by
  induction l generalizing d with
  | nil => exact ⟨hfind, hsome, hvals⟩
  | cons s' rest ih =>
    rw [List.map_cons] at hne
    have hne1 : s'.1 ≠ sku := fun h => hne (h ▸ List.mem_cons_self _ _)
    have hne2 : sku ∉ rest.map Prod.fst := fun h => hne (List.mem_cons_of_mem _ h)
    obtain ⟨h1, h2, h3⟩ := syncSaleStep_preserva acc a m d s' sku p P hwf hne1 hfind hvals
    rw [List.foldl_cons]
    exact ih (syncSaleStep acc a m d s') (syncSaleStep_wf acc a m d s' hwf) hne2
      h1 (h2 ▸ hsome) h3

/-- A replace-mode sync step records its own sale. -/
theorem syncSaleStep_registra_false (a m : Int) (d : DB)
    (s : String × VentaAgregada) :
    Registrada (syncSaleStep false a m d s) a m s := by
  unfold syncSaleStep
  cases hf : findProducto d.productos s.1 with
  | some p =>
    obtain ⟨hsome, hvals⟩ := upsertMonthlySale_registra d p.id a m s.2.cantidad s.2.montoNeto
    refine ⟨p, ?_, hsome, hvals⟩
    rw [upsertMonthlySale_productos]
    exact hf
  | none =>
    obtain ⟨hsome, hvals⟩ := upsertMonthlySale_registra
      (createProducto d s.1 "Producto nuevo (auto-creado)" "").2
      d.nextProductoId a m s.2.cantidad s.2.montoNeto
    refine ⟨⟨d.nextProductoId, s.1, "Producto nuevo (auto-creado)", ""⟩, ?_, hsome, hvals⟩
    rw [upsertMonthlySale_productos]
    exact findProducto_append_self d.productos _ hf

/-- A sync step whose SKU is unknown auto-creates the placeholder product and
records the sale against it (both sync modes: the create branch ignores
`accumulate`). -/
theorem syncSaleStep_crea (acc : Bool) (a m : Int) (d : DB)
    (s : String × VentaAgregada)
    (hnone : findProducto d.productos s.1 = none) :
    CreadaConVenta (syncSaleStep acc a m d s) a m s := by
  unfold syncSaleStep
  rw [hnone]
  obtain ⟨hsome, hvals⟩ := upsertMonthlySale_registra
    (createProducto d s.1 "Producto nuevo (auto-creado)" "").2
    d.nextProductoId a m s.2.cantidad s.2.montoNeto
  refine ⟨⟨d.nextProductoId, s.1, "Producto nuevo (auto-creado)", ""⟩, ?_, rfl, rfl, ?_, hsome, hvals⟩
  · rw [upsertMonthlySale_productos]
    exact findProducto_append_self d.productos _ hnone
  · rw [upsertMonthlySale_productos]
    show (d.productos ++ [(⟨d.nextProductoId, s.1, "Producto nuevo (auto-creado)", ""⟩ : Producto)]).countP
      (fun q => q.sku == s.1) = 1
    rw [List.countP_append]
    have h0 : d.productos.countP (fun q => q.sku == s.1) = 0 := by
      rw [List.countP_eq_zero]
      exact List.find?_eq_none.mp hnone
    have h1 : List.countP (fun q => q.sku == s.1)
        [(⟨d.nextProductoId, s.1, "Producto nuevo (auto-creado)", ""⟩ : Producto)] = 1 := by
      simp [List.countP_cons]
    omega

/-- A sync step for a different SKU preserves the per-SKU product count. -/
theorem syncSaleStep_countP (acc : Bool) (a m : Int) (d : DB)
    (s' : String × VentaAgregada) (sku : String) (hne : s'.1 ≠ sku) :
    (syncSaleStep acc a m d s').productos.countP (fun q => q.sku == sku)
      = d.productos.countP (fun q => q.sku == sku) := by
  rcases syncSaleStep_productos acc a m d s' with h | h
  · rw [h]
  · rw [h, List.countP_append]
    have : List.countP (fun q => q.sku == sku)
        [(⟨d.nextProductoId, s'.1, "Producto nuevo (auto-creado)", ""⟩ : Producto)] = 0 := by
      simp [List.countP_cons, hne]
    omega

/-- Folding sync steps whose SKUs all differ preserves `CreadaConVenta`. -/
theorem syncFold_preserva_crea (acc : Bool) (a m : Int)
    (l : List (String × VentaAgregada)) (d : DB) (s : String × VentaAgregada)
    (hwf : DBWF d) (hne : s.1 ∉ l.map Prod.fst)
    (hcrea : CreadaConVenta d a m s) :
    CreadaConVenta (l.foldl (syncSaleStep acc a m) d) a m s := by
  induction l generalizing d with
  | nil => exact hcrea
  | cons s' rest ih =>
    rw [List.map_cons] at hne
    have hne1 : s'.1 ≠ s.1 := fun h => hne (h ▸ List.mem_cons_self _ _)
    have hne2 : s.1 ∉ rest.map Prod.fst := fun h => hne (List.mem_cons_of_mem _ h)
    obtain ⟨p, hfind, hdesc, hfam, hcount, hsome, hvals⟩ := hcrea
    obtain ⟨h1, h2, h3⟩ := syncSaleStep_preserva acc a m d s' s.1 p
      (fun v => v.cantidadVendida = s.2.cantidad ∧ v.montoNeto = s.2.montoNeto)
      hwf hne1 hfind hvals
    rw [List.foldl_cons]
    refine ih (syncSaleStep acc a m d s') (syncSaleStep_wf acc a m d s' hwf) hne2
      ⟨p, h1, hdesc, hfam, ?_, ?_, h3⟩
    · exact (syncSaleStep_countP acc a m d s' s.1 hne1).trans hcount
    · rw [h2]
      exact hsome

/-- Unknown-SKU master lemma: in either accumulate mode, syncing a batch of
aggregated sales with unique SKUs auto-creates and records every sale whose
SKU has no local product. -/
theorem syncFold_crea_unknown (acc : Bool) (a m : Int)
    (sales : List (String × VentaAgregada)) (db : DB)
    (s : String × VentaAgregada)
    (hwf : DBWF db) (hnd : (sales.map Prod.fst).Nodup) (hs : s ∈ sales)
    (hnone : findProducto db.productos s.1 = none) :
    CreadaConVenta (sales.foldl (syncSaleStep acc a m) db) a m s := by
  induction sales generalizing db with
  | nil => simp at hs
  | cons s0 rest ih =>
    rw [List.map_cons, List.nodup_cons] at hnd
    rw [List.foldl_cons]
    rcases List.mem_cons.mp hs with rfl | hs'
    · exact syncFold_preserva_crea acc a m rest (syncSaleStep acc a m db s)
        s (syncSaleStep_wf acc a m db s hwf) hnd.1
        (syncSaleStep_crea acc a m db s hnone)
    · have hne : s0.1 ≠ s.1 := fun h =>
        hnd.1 (h ▸ List.mem_map_of_mem Prod.fst hs')
      have hnone' : findProducto (syncSaleStep acc a m db s0).productos s.1 = none := by
        rw [syncSaleStep_find_other acc a m db s0 s.1 hne]
        exact hnone
      exact ih (syncSaleStep acc a m db s0) (syncSaleStep_wf acc a m db s0 hwf)
        hnd.2 hs' hnone'

/-!
### Claim C7: idempotent full-month sync
-/

theorem syncFullMonth_registra (a m : Int) (sales : List (String × VentaAgregada))
    (db : DB) (hwf : DBWF db) (hnd : (sales.map Prod.fst).Nodup) :
    ∀ s ∈ sales, Registrada (syncFullMonth a m sales db) a m s := by
  induction sales generalizing db with
  | nil => intro s hs; simp at hs
  | cons s0 rest ih =>
    rw [List.map_cons, List.nodup_cons] at hnd
    intro s hs
    unfold syncFullMonth
    rw [List.foldl_cons]
    rcases List.mem_cons.mp hs with rfl | hs'
    · obtain ⟨p, hfind, hsome, hvals⟩ := syncSaleStep_registra_false a m db s
      obtain ⟨h1, h2, h3⟩ := syncFold_preserva false a m rest (syncSaleStep false a m db s)
        s.1 p _ (syncSaleStep_wf false a m db s hwf) hnd.1 hfind hsome hvals
      exact ⟨p, h1, h2, h3⟩
    · exact ih (syncSaleStep false a m db s0)
        (syncSaleStep_wf false a m db s0 hwf) hnd.2 s hs'

/-- A replace-mode sync step for an already-recorded sale is the identity. -/
theorem syncSaleStep_id_of_registrada (a m : Int) (d : DB)
    (s : String × VentaAgregada) (hreg : Registrada d a m s) :
    syncSaleStep false a m d s = d := by
  obtain ⟨p, hfind, hsome, hvals⟩ := hreg
  unfold syncSaleStep
  rw [hfind]
  have hrepl : replaceVentaHistorica d.ventasHistoricas p.id a m s.2.cantidad s.2.montoNeto
      = d.ventasHistoricas := by
    unfold replaceVentaHistorica
    have hid : ∀ v ∈ d.ventasHistoricas,
        (if matchVH p.id a m v then
          { v with cantidadVendida := s.2.cantidad, montoNeto := s.2.montoNeto } else v) = v := by
      intro v hv
      by_cases hm : matchVH p.id a m v = true
      · obtain ⟨hc, hmo⟩ := hvals v hv hm
        rw [if_pos hm, ← hc, ← hmo]
      · rw [if_neg hm]
    rw [List.map_congr_left hid]
    exact List.map_id' d.ventasHistoricas
  have hh : (upsertMonthlySale d p.id a m s.2.cantidad s.2.montoNeto false).ventasHistoricas
      = d.ventasHistoricas := by
    obtain ⟨c', mo', heq, hvv⟩ := upsertMonthlySale_eq_upsert d p.id a m
      s.2.cantidad s.2.montoNeto false
    obtain ⟨rfl, rfl⟩ := hvv rfl
    rw [heq]
    unfold upsertVentaHistorica
    cases hf2 : findVentaHistorica d.ventasHistoricas p.id a m with
    | none => rw [hf2] at hsome; cases hsome
    | some e => exact hrepl
  ext1
  · exact upsertMonthlySale_productos ..
  · exact hh
  · exact upsertMonthlySale_ventasActuales ..
  · exact upsertMonthlySale_pedidos ..
  · exact upsertMonthlySale_nextId ..

theorem syncFold_id_of_registrada (a m : Int)
    (sales : List (String × VentaAgregada)) (d : DB)
    (hall : ∀ s ∈ sales, Registrada d a m s) :
    sales.foldl (syncSaleStep false a m) d = d := by
  induction sales with
  | nil => rfl
  | cons s0 rest ih =>
    rw [List.foldl_cons, syncSaleStep_id_of_registrada a m d s0 (hall s0 (List.mem_cons_self _ _))]
    exact ih (fun s hs => hall s (List.mem_cons_of_mem _ hs))

/-- C7.  Full-month sync is idempotent: over a well-formed store and the same
aggregated month data (SKUs unique, as produced by the JS `Map`), running
`syncFullMonth` twice leaves the database — in particular every
`ventaHistorica` row — in exactly the state one run produces: the second run
replaces each SKU's row with identical values instead of accumulating. -/
theorem c7_syncFullMonth_idempotente (a m : Int)
    (sales : List (String × VentaAgregada)) (db : DB)
    (hwf : DBWF db) (hnd : (sales.map Prod.fst).Nodup) :
    syncFullMonth a m sales (syncFullMonth a m sales db) = syncFullMonth a m sales db :=
  syncFold_id_of_registrada a m sales (syncFullMonth a m sales db)
    (syncFullMonth_registra a m sales db hwf hnd)

/-- C7 witness: an empty store synced twice with one aggregated sale. -/
theorem c7_syncFullMonth_witness :
    syncFullMonth 2026 9 [("X", ⟨5, 100⟩)]
        (syncFullMonth 2026 9 [("X", ⟨5, 100⟩)] ⟨[], [], [], [], 1⟩)
      = syncFullMonth 2026 9 [("X", ⟨5, 100⟩)] ⟨[], [], [], [], 1⟩ :=
  c7_syncFullMonth_idempotente 2026 9 [("X", ⟨5, 100⟩)] ⟨[], [], [], [], 1⟩
    ⟨by simp, by simp, by simp⟩ (by simp)

/-!
### Claim C4: unknown SKUs per sync mode
-/

theorem currentSaleStep_productos (sm : List (String × ℚ)) (d : DB)
    (s : String × VentaAgregada) :
    (currentSaleStep sm d s).productos = d.productos := by
  unfold currentSaleStep
  cases findProducto d.productos s.1 <;> rfl

theorem currentStockStep_productos (ms : List (String × VentaAgregada)) (d : DB)
    (e : String × ℚ) :
    (currentStockStep ms d e).productos = d.productos := by
  unfold currentStockStep
  by_cases h : (ms.any (fun sale => sale.1 == e.1)) = true
  · rw [if_pos h]
  · rw [if_neg h]
    cases findProducto d.productos e.1 <;> rfl

theorem currentSaleFold_productos (sm : List (String × ℚ))
    (l : List (String × VentaAgregada)) (d : DB) :
    (l.foldl (currentSaleStep sm) d).productos = d.productos := by
  induction l generalizing d with
  | nil => rfl
  | cons s rest ih =>
    rw [List.foldl_cons, ih, currentSaleStep_productos]

theorem currentStockFold_productos (ms : List (String × VentaAgregada))
    (l : List (String × ℚ)) (d : DB) :
    (l.foldl (currentStockStep ms) d).productos = d.productos := by
  induction l generalizing d with
  | nil => rfl
  | cons e rest ih =>
    rw [List.foldl_cons, ih, currentStockStep_productos]

theorem syncCurrentMonthData_productos (ms : List (String × VentaAgregada))
    (sm : List (String × ℚ)) (db : DB) :
    (syncCurrentMonthData ms sm db).productos = db.productos := by
  unfold syncCurrentMonthData
  rw [currentStockFold_productos, currentSaleFold_productos]

theorem currentSaleFold_rows (sm : List (String × ℚ)) (ps : List Producto)
    (l : List (String × VentaAgregada)) (d : DB)
    (hps : d.productos = ps)
    (hrows : ∀ v ∈ d.ventasActuales, ∃ p ∈ ps, v.productoId = p.id) :
    ∀ v ∈ (l.foldl (currentSaleStep sm) d).ventasActuales,
      ∃ p ∈ ps, v.productoId = p.id := by
  induction l generalizing d with
  | nil => exact hrows
  | cons s rest ih =>
    rw [List.foldl_cons]
    refine ih (currentSaleStep sm d s) ?_ ?_
    · rw [currentSaleStep_productos, hps]
    · unfold currentSaleStep
      cases hf : findProducto d.productos s.1 with
      | none => exact hrows
      | some p =>
        intro v hv
        rcases List.mem_append.mp hv with h | h
        · exact hrows v h
        · rcases List.mem_singleton.mp h with rfl
          exact ⟨p, hps ▸ List.mem_of_find?_eq_some hf, rfl⟩

theorem currentStockFold_rows (ms : List (String × VentaAgregada)) (ps : List Producto)
    (l : List (String × ℚ)) (d : DB)
    (hps : d.productos = ps)
    (hrows : ∀ v ∈ d.ventasActuales, ∃ p ∈ ps, v.productoId = p.id) :
    ∀ v ∈ (l.foldl (currentStockStep ms) d).ventasActuales,
      ∃ p ∈ ps, v.productoId = p.id := by
  induction l generalizing d with
  | nil => exact hrows
  | cons e rest ih =>
    rw [List.foldl_cons]
    refine ih (currentStockStep ms d e) ?_ ?_
    · rw [currentStockStep_productos, hps]
    · unfold currentStockStep
      by_cases hany : (ms.any (fun sale => sale.1 == e.1)) = true
      · rw [if_pos hany]; exact hrows
      · rw [if_neg hany]
        cases hf : findProducto d.productos e.1 with
        | none => exact hrows
        | some p =>
          intro v hv
          rcases List.mem_append.mp hv with h | h
          · exact hrows v h
          · rcases List.mem_singleton.mp h with rfl
            exact ⟨p, hps ▸ List.mem_of_find?_eq_some hf, rfl⟩

theorem syncCurrentMonthData_rows_known (ms : List (String × VentaAgregada))
    (sm : List (String × ℚ)) (db : DB) :
    ∀ v ∈ (syncCurrentMonthData ms sm db).ventasActuales,
      ∃ p ∈ db.productos, v.productoId = p.id := by
  unfold syncCurrentMonthData
  refine currentStockFold_rows ms db.productos sm _ ?_ ?_
  · rw [currentSaleFold_productos]
  · exact currentSaleFold_rows sm db.productos ms _ rfl (by intro v hv; simp at hv)

/-- C4 (amended).  Unknown-SKU handling differs per sync mode: in single-day
sync (`syncDaySales`) and full-month sync (`syncFullMonth`), an aggregated sale
whose SKU has no local product row causes exactly one new product row with the
placeholder description `"Producto nuevo (auto-creado)"`, and the sale's
quantity/amount is recorded in that product's `(year, month)` historical row;
in current-month sync (`syncCurrentMonthData`), such a sale is silently
skipped — no product row is ever created and every `ventaActual` row written
belongs to a pre-existing product. -/
theorem c4_sku_desconocido_por_modo :
    (∀ (a m : Int) (sales : List (String × VentaAgregada)) (db : DB)
        (s : String × VentaAgregada),
      DBWF db → (sales.map Prod.fst).Nodup → s ∈ sales →
      findProducto db.productos s.1 = none →
      CreadaConVenta (syncDaySales a m sales db) a m s) ∧
    (∀ (a m : Int) (sales : List (String × VentaAgregada)) (db : DB)
        (s : String × VentaAgregada),
      DBWF db → (sales.map Prod.fst).Nodup → s ∈ sales →
      findProducto db.productos s.1 = none →
      CreadaConVenta (syncFullMonth a m sales db) a m s) ∧
    (∀ (ms : List (String × VentaAgregada)) (sm : List (String × ℚ)) (db : DB),
      (syncCurrentMonthData ms sm db).productos = db.productos) ∧
    (∀ (ms : List (String × VentaAgregada)) (sm : List (String × ℚ)) (db : DB),
      ∀ v ∈ (syncCurrentMonthData ms sm db).ventasActuales,
        ∃ p ∈ db.productos, v.productoId = p.id) :=
  ⟨fun a m sales db s hwf hnd hs hnone =>
      syncFold_crea_unknown true a m sales db s hwf hnd hs hnone,
   fun a m sales db s hwf hnd hs hnone =>
      syncFold_crea_unknown false a m sales db s hwf hnd hs hnone,
   syncCurrentMonthData_productos,
   syncCurrentMonthData_rows_known⟩

/-- C4 witness: day sync of one unknown-SKU sale over the empty store creates
the placeholder product and records the sale. -/
theorem c4_sku_desconocido_witness :
    CreadaConVenta (syncDaySales 2026 10 [("X", ⟨5, 100⟩)] ⟨[], [], [], [], 1⟩)
      2026 10 ("X", ⟨5, 100⟩) :=
  c4_sku_desconocido_por_modo.1 2026 10 [("X", ⟨5, 100⟩)] ⟨[], [], [], [], 1⟩
    ("X", ⟨5, 100⟩) ⟨by simp, by simp, by simp⟩ (by simp) (by simp) rfl

/-- C4 counterexample.  The claim says that in every sync mode an
unknown-SKU sale creates exactly one new product row and is still recorded;
but `syncCurrentMonthData` over the empty store with the aggregated sale
`("X", 5 units, 100)` returns the store unchanged: no product row is created
and no `ventaActual` row records the sale — it is silently dropped. -/
theorem c4_counterexample :
    syncCurrentMonthData [("X", ⟨5, 100⟩)] [] ⟨[], [], [], [], 1⟩ = ⟨[], [], [], [], 1⟩ ∧
    (syncCurrentMonthData [("X", ⟨5, 100⟩)] [] ⟨[], [], [], [], 1⟩).productos = [] ∧
    (syncCurrentMonthData [("X", ⟨5, 100⟩)] [] ⟨[], [], [], [], 1⟩).ventasActuales = [] :=
  ⟨rfl, rfl, rfl⟩

/-!
## Dashboard aggregation (src/controllers/dashboardController.js) and the
`/api/productos/completo` variant (`getProductosCompleto`)
-/

/-- One insertion into the `Map<sku, {cantidad, montoNeto}>` of
`aggregateSalesByProduct` (src/public/app.js lines 441-462): create the entry
on first sight, then add the line's quantity and amount. -/
def aggAdd (sm : List (String × VentaAgregada)) (pv : ProductoVenta) :
    List (String × VentaAgregada) :=
  if sm.any (fun e => e.1 == pv.sku) then
    sm.map (fun e => if e.1 == pv.sku then
      (e.1, ⟨e.2.cantidad + pv.cantidad, e.2.montoNeto + pv.montoNeto⟩) else e)
  else sm ++ [(pv.sku, ⟨pv.cantidad, pv.montoNeto⟩)]

/-- Embeds `aggregateSalesByProduct` (src/public/app.js lines 441-462): extract each
document and fold the line items into the per-SKU map (insertion order). -/
def aggregateSalesByProduct (docs : List Documento) : List (String × VentaAgregada) :=
  docs.foldl (fun sm doc => (extractProductsFromDocument doc).foldl aggAdd sm) []

/-- Embeds `subMonths` for the first of a month: the calendar month `i` months before
`(ano, mes)`, via the linear month index. -/
def mesesAtras (ano mes : Int) (i : Nat) : Int × Int :=
  let idx := 12 * ano + (mes - 1) - i
  (idx.ediv 12, idx.emod 12 + 1)

/-- Embeds `generateMonthsArray` (src/controllers/dashboardController.js lines
26-41): the months `subMonths(today, i)` for `i = mesesNum` down to `1`. -/
def generateMonthsArray (ano mes : Int) (n : Nat) : List (Int × Int) :=
  (List.range n).map (fun j => mesesAtras ano mes (n - j))

/-- Lookup in the `ventasPorMes` object (src/controllers/dashboardController.js
lines 149-162): the object is built by iterating the rows in order with later
rows overwriting the key `ano-mes`, so the last matching row wins (first match
of the reversed list); `|| 0` for a month with no row. -/
def ventasPorMesLookup (vs : List VentaHistorica) (a m : Int) : ℚ :=
  match vs.reverse.find? (fun v => v.ano == a && v.mes == m) with
  | some v => v.cantidadVendida
  | none => 0

/-- One dashboard product row (src/controllers/dashboardController.js lines
134-191).  `promedioBruto` is the JS local `promedio` (used for the suggested
purchase); the reported `promedio` field applies `parseFloat(toFixed(2))`. -/
structure DashRow where
  ventasMeses : List (Int × Int × ℚ)
  promedioBruto : ℚ
  promedio : ℚ
  ventaActualMes : ℚ
  stockActual : ℚ
  compraSugerida : ℤ
  compraRealizar : Option ℚ
deriving DecidableEq

/-- The per-product dashboard computation (src/controllers/dashboardController.js
lines 134-191): persisted current-month quantity (`|| 0`) plus today's live
quantity when present, month columns from the window rows with 0 for missing
months, `promedio = total / ventasMeses.length`,
`compraSugerida = Math.round(promedio - stockActual - cantidadMesActual)`, and
`compraRealizar = pedidoActual?.cantidad ?? null`. -/
def dashRow (monthsArray : List (Int × Int)) (ventasHistoricas : List VentaHistorica)
    (ventaActualDB : Option VentaActual) (ventaHoy : Option VentaAgregada)
    (pedidoActual : Option Pedido) : DashRow :=
  let cantidadDB : ℚ := match ventaActualDB with | some va => va.cantidadVendida | none => 0
  let stockActual : ℚ := match ventaActualDB with | some va => va.stockActual | none => 0
  let cantidadMesActual : ℚ :=
    match ventaHoy with | some vh => cantidadDB + vh.cantidad | none => cantidadDB
  let ventasMeses := monthsArray.map
    (fun mm => (mm.1, mm.2, ventasPorMesLookup ventasHistoricas mm.1 mm.2))
  let totalCantidad := (ventasMeses.map (fun e => e.2.2)).sum
  let promedio := totalCantidad / (ventasMeses.length : ℚ)
  { ventasMeses := ventasMeses
    promedioBruto := promedio
    promedio := round2 promedio
    ventaActualMes := cantidadMesActual
    stockActual := stockActual
    compraSugerida := jsRound (promedio - stockActual - cantidadMesActual)
    compraRealizar := pedidoActual.map (·.cantidad) }

/-- The `filtroFecha` window (src/controllers/dashboardController.js lines
72-89, duplicated in src/unnamed/part_011 lines 237-260): strictly before the
current month and at or after the start month, comparing year then month. -/
def enVentana (anoActual mesActual anoInicio mesInicio : Int) (v : VentaHistorica) : Bool :=
  (decide (v.ano < anoActual) || (v.ano == anoActual && decide (v.mes < mesActual))) &&
  (decide (anoInicio < v.ano) || (v.ano == anoInicio && decide (mesInicio ≤ v.mes)))

/-- Response metadata subset relevant to the model. -/
structure DashMeta where
  mesesConsultados : Nat
  marca : Option String
  anoActual : Int
  mesActual : Int
deriving DecidableEq

/-- Outcome of a dashboard read: a success payload or the 400 of an invalid
`meses` parameter.  The embedded read path is total, so the source's 500
branch (outer catch) has no image in the model. -/
inductive DashResponse where
  | exito (meta : DashMeta) (productos : List DashRow)
  | badRequest (msg : String)
deriving DecidableEq

def isExito : DashResponse → Bool
  | .exito _ _ => true
  | .badRequest _ => false

/-- Embeds `getDashboard` (src/controllers/dashboardController.js lines 52-212).
`ventasHoyDocs` is the outcome of the live `getAllSales(startOfToday, now)`
call: `Except.error` when it throws, in which case the catch at lines 109-111
leaves `ventasHoyMap` as the empty map and the read continues from persisted
data alone.  The `marca` filter upper-cases the prefix as the source does. -/
def getDashboard (mesesNum : Nat) (marca : Option String) (anoActual mesActual : Int)
    (db : DB) (ventasHoyDocs : Except String (List Documento)) : DashResponse :=
  if ¬(mesesNum = 3 ∨ mesesNum = 6 ∨ mesesNum = 12) then
    .badRequest "El parametro meses debe ser 3, 6 o 12"
  else
    let monthsArray := generateMonthsArray anoActual mesActual mesesNum
    let ventasHoyMap := match ventasHoyDocs with
      | .ok docs => aggregateSalesByProduct docs
      | .error _ => []
    let inicio := mesesAtras anoActual mesActual mesesNum
    let productosDB : List Producto := match marca with
      | some mq => db.productos.filter (fun p => (mq.toUpper).isPrefixOf p.sku)
      | none => db.productos
    let filas := productosDB.map (fun p : Producto =>
      let vhs := db.ventasHistoricas.filter
        (fun v => (v.productoId == p.id) && enVentana anoActual mesActual inicio.1 inicio.2 v)
      let va := db.ventasActuales.find? (fun v => v.productoId == p.id)
      let ped := db.pedidos.find?
        (fun q => (q.productoId == p.id) && ((q.ano == anoActual) && (q.mes == mesActual)))
      let vHoy := (ventasHoyMap.find? (fun e => e.1 == p.sku)).map (·.2)
      dashRow monthsArray vhs va vHoy ped)
    .exito ⟨mesesNum, marca, anoActual, mesActual⟩ filas

/-- The per-product aggregation of `getProductosCompleto`
(src/unnamed/part_011 lines 304-355): `mesesConVentas` is the number of
window rows the product has, and both averages divide by it — not by the
requested window length — returning 0 when there are no rows. -/
structure ProductoCompletoRow where
  promedioVenta : ℚ
  promedioMonto : ℚ
  totalMeses : Nat
deriving DecidableEq

def getProductosCompletoRow (ventasHistoricas : List VentaHistorica) : ProductoCompletoRow :=
  let totalCantidad := (ventasHistoricas.map (·.cantidadVendida)).sum
  let totalMonto := (ventasHistoricas.map (·.montoNeto)).sum
  let mesesConVentas := ventasHistoricas.length
  { promedioVenta := if 0 < mesesConVentas then round2 (totalCantidad / (mesesConVentas : ℚ)) else 0
    promedioMonto := if 0 < mesesConVentas then round2 (totalMonto / (mesesConVentas : ℚ)) else 0
    totalMeses := mesesConVentas }

/-- The row list `getProductosCompleto` produces for window `meses` at the
current month (src/unnamed/part_011 lines 215-372), with the same window
filter as the dashboard. -/
def getProductosCompletoRows (meses : Nat) (anoActual mesActual : Int) (db : DB) :
    List ProductoCompletoRow :=
  let inicio := mesesAtras anoActual mesActual meses
  db.productos.map (fun p =>
    getProductosCompletoRow (db.ventasHistoricas.filter
      (fun v => (v.productoId == p.id) && enVentana anoActual mesActual inicio.1 inicio.2 v)))

/-!
### Claim C6
-/

/-- C6.  For every dashboard row, `compraSugerida` is
`Math.round(average − stockOnHand − currentMonthSold)` where the average is
the window sum over the window length and `currentMonthSold` is the persisted
current-month quantity plus today's live quantity; on the claim's concrete
instances, average 100 / stock 20 / sold 10 gives 70 and average 10 /
stock 50 / sold 0 gives −40 — a negative value signalling overstock. -/
theorem c6_compra_sugerida :
    (∀ (ma : List (Int × Int)) (vhs : List VentaHistorica) (va : Option VentaActual)
        (vHoy : Option VentaAgregada) (ped : Option Pedido),
      (dashRow ma vhs va vHoy ped).compraSugerida
        = jsRound ((ma.map (fun mm => ventasPorMesLookup vhs mm.1 mm.2)).sum / (ma.length : ℚ)
            - (match va with | some v => v.stockActual | none => 0)
            - ((match va with | some v => v.cantidadVendida | none => 0)
               + (match vHoy with | some v => v.cantidad | none => 0)))) ∧
    (dashRow [(2025, 7), (2025, 8), (2025, 9)]
      [⟨1, 2025, 7, 100, 0⟩, ⟨1, 2025, 8, 100, 0⟩, ⟨1, 2025, 9, 100, 0⟩]
      (some ⟨1, 10, 20, 0⟩) none none).compraSugerida = 70 ∧
    (dashRow [(2025, 7), (2025, 8), (2025, 9)]
      [⟨1, 2025, 7, 10, 0⟩, ⟨1, 2025, 8, 10, 0⟩, ⟨1, 2025, 9, 10, 0⟩]
      (some ⟨1, 0, 50, 0⟩) none none).compraSugerida = -40 := by
  refine ⟨?_, ?_, ?_⟩
  · intro ma vhs va vHoy ped
    unfold dashRow
    cases va <;> cases vHoy <;>
      · simp only [List.map_map, List.length_map, Function.comp_def]
        try congr 1
        all_goals ring
  · norm_num [dashRow, ventasPorMesLookup, jsRound]
  · norm_num [dashRow, ventasPorMesLookup, jsRound]

/-!
### Claim C5
-/

/-- C5 (amended).  The two average computations diverge: `getDashboard`
divides the window sum (0 for months without a row) by the window length
N ∈ {3, 6, 12} — the reported field additionally rounds to two decimals, and
the unrounded quotient feeds `compraSugerida` — while `getProductosCompleto`
(src/unnamed/part_011) divides by the number of window months that have a
`ventaHistorica` row (0 with no rows at all), not by N. -/
theorem c5_promedio_formulas :
    (∀ (a m : Int) (n : Nat) (vhs : List VentaHistorica) (va : Option VentaActual)
        (vHoy : Option VentaAgregada) (ped : Option Pedido),
      (n = 3 ∨ n = 6 ∨ n = 12) →
      (dashRow (generateMonthsArray a m n) vhs va vHoy ped).promedioBruto
        = ((generateMonthsArray a m n).map
            (fun mm => ventasPorMesLookup vhs mm.1 mm.2)).sum / (n : ℚ) ∧
      (dashRow (generateMonthsArray a m n) vhs va vHoy ped).promedio
        = round2 (((generateMonthsArray a m n).map
            (fun mm => ventasPorMesLookup vhs mm.1 mm.2)).sum / (n : ℚ))) ∧
    (∀ vhs : List VentaHistorica,
      (getProductosCompletoRow vhs).promedioVenta
        = if 0 < vhs.length then
            round2 ((vhs.map (·.cantidadVendida)).sum / (vhs.length : ℚ))
          else 0) := by
  constructor
  · intro a m n vhs va vHoy ped _
    have hlen : (generateMonthsArray a m n).length = n := by
      simp [generateMonthsArray]
    constructor
    · unfold dashRow
      simp only [List.map_map, List.length_map, hlen]
      congr 1
    · unfold dashRow
      simp only [List.map_map, List.length_map, hlen]
      congr 2
  · intro vhs
    rfl

/-- C5 witness: a dashboard row with window N = 3 at October 2025 has average
equal to the window sum over 3. -/
theorem c5_promedio_formulas_witness :
    (dashRow (generateMonthsArray 2025 10 3) [] none none none).promedioBruto
      = ((generateMonthsArray 2025 10 3).map
          (fun mm => ventasPorMesLookup [] mm.1 mm.2)).sum / (3 : ℚ) :=
  (c5_promedio_formulas.1 2025 10 3 [] none none none (Or.inl rfl)).1

/-- Store for the C5 counterexample: one product whose only window row is
September 2025 with quantity 6, read with window N = 3 at October 2025. -/
def dbPromedio : DB :=
  ⟨[⟨1, "A", "d", "f"⟩], [⟨1, 2025, 9, 6, 0⟩], [], [], 2⟩

/-- C5 counterexample.  With window N = 3 at current month October 2025, the
claim's formula gives (6 + 0 + 0) / 3 = 2, but the `getProductosCompleto`
aggregation — one of the two implementations the claim covers — reports
average 6, dividing by the single month that has a row. -/
theorem c5_counterexample :
    getProductosCompletoRows 3 2025 10 dbPromedio = [⟨6, 0, 1⟩] ∧
    ((6 : ℚ) + 0 + 0) / 3 ≠ (6 : ℚ) := by
  constructor
  · norm_num [getProductosCompletoRows, getProductosCompletoRow, dbPromedio,
      mesesAtras, enVentana, round2, jsRound]
  · norm_num

/-!
### Claim C10
-/

/-- C10.  If fetching today's live sales throws during a dashboard read, the
read does not fail: the response equals the one computed from persisted data
with an empty live map — a normal success payload (for a valid `meses`
parameter) with no error indication. -/
theorem c10_dashboard_live_error (n : Nat) (marca : Option String)
    (a m : Int) (db : DB) (e : String) :
    getDashboard n marca a m db (.error e) = getDashboard n marca a m db (.ok []) ∧
    ((n = 3 ∨ n = 6 ∨ n = 12) → isExito (getDashboard n marca a m db (.error e)) = true) := by
  constructor
  · unfold getDashboard
    by_cases h : (n = 3 ∨ n = 6 ∨ n = 12)
    · rw [if_neg (not_not_intro h), if_neg (not_not_intro h)]
      rfl
    · rw [if_pos h, if_pos h]
  · intro h
    unfold getDashboard
    rw [if_neg (not_not_intro h)]
    rfl

/-- C10 witness: a read with `meses = 3` over a one-product store whose live
fetch failed produces the same success response as a read with no live sales. -/
theorem c10_dashboard_live_error_witness :
    isExito (getDashboard 3 none 2025 10 dbPromedio (.error "ECONNRESET")) = true :=
  (c10_dashboard_live_error 3 none 2025 10 dbPromedio "ECONNRESET").2 (Or.inl rfl)

/-!
## Stock / warehouse filtering (src/unnamed/part_006 and
`getCurrentStock` of src/public/app.js)
-/

/-- One raw stock record: the warehouse-name aliases probed by
`isGeneralWarehouse` plus the SKU/stock fields read by `getCurrentStock`. -/
structure StockItem where
  bodega : Option String := none
  almacen : Option String := none
  descripcion_bodega : Option String := none
  nombre_bodega : Option String := none
  bod : Option String := none
  cod_prod : Option String := none
  codigo_prod : Option String := none
  saldo : Option ℚ := none
  stock : Option ℚ := none
deriving DecidableEq

/-- The name resolution of `isGeneralWarehouse` (src/unnamed/part_006 lines
23-30): `(bodega || almacen || descripcion_bodega || nombre_bodega || bod ||
'').toString().toLowerCase().trim()`. -/
def nombreBodega (it : StockItem) : String :=
  trimStr (toLowerStr (valS (jsOrS it.bodega (jsOrS it.almacen
    (jsOrS it.descripcion_bodega (jsOrS it.nombre_bodega it.bod))))))

/-- Embeds `isGeneralWarehouse` (src/unnamed/part_006 lines 22-40): include when no
name resolves, exclude names containing `"temporal"`, include names containing
`"general"`, and include any other non-temporal name. -/
def isGeneralWarehouse (it : StockItem) : Bool :=
  let name := nombreBodega it
  if name = "" then true
  else if strHasSub name "temporal" then false
  else if strHasSub name "general" then true
  else !(strHasSub name "temporal")

/-- A member of the `stock` field of a product payload, which may be a flat
record or a nested array of records (src/unnamed/part_006 lines 84-90). -/
inductive StockEntry where
  | item (it : StockItem)
  | grupo (its : List StockItem)
deriving DecidableEq

/-- Embeds `processItem` (src/unnamed/part_006 lines 72-82): add `saldo` when the
entry passes the warehouse filter and its balance is strictly positive. -/
def processStockItem (acc : ℚ) (it : StockItem) : ℚ :=
  let saldoNum := it.saldo.getD 0
  if isGeneralWarehouse it && decide (0 < saldoNum) then acc + saldoNum else acc

/-- Embeds `extractStockFromProduct` (src/unnamed/part_006 lines 51-93): total the
general-warehouse balances over the flat or nested stock entries (`none`
models a missing/non-array `stock` field, which returns 0). -/
def extractStockFromProduct (stockEntries : Option (List StockEntry)) : ℚ :=
  match stockEntries with
  | none => 0
  | some entries =>
    entries.foldl (fun acc e =>
      match e with
      | .grupo its => its.foldl processStockItem acc
      | .item it => processStockItem acc it) 0

/-- Embeds `stockMap.set(sku, stock)` of `getCurrentStock`: JS map set overwrites an
existing key, otherwise appends in insertion order. -/
def mapSet (sm : List (String × ℚ)) (k : String) (v : ℚ) : List (String × ℚ) :=
  if sm.any (fun e => e.1 == k) then
    sm.map (fun e => if e.1 == k then (k, v) else e)
  else sm ++ [(k, v)]

/-- The `Map<sku, stock>` built by `getCurrentStock` (src/public/app.js lines
511-545) from the `/stock/` payload: `sku = cod_prod || codigo_prod`,
`stock = parseFloat(saldo || stock || 0)`, entries with a truthy SKU are set —
with no warehouse-name consideration whatsoever. -/
def getCurrentStockMap (stockData : List StockItem) : List (String × ℚ) :=
  stockData.foldl (fun sm item =>
    let skuO := jsOrS item.cod_prod item.codigo_prod
    let stockVal := jsOrQ item.saldo (jsOrQ item.stock 0)
    if truthyS skuO then mapSet sm (valS skuO) stockVal else sm) []

/-- Erase every warehouse-name alias of a stock record. -/
def eraseBodegas (it : StockItem) : StockItem :=
  { it with bodega := none, almacen := none, descripcion_bodega := none,
            nombre_bodega := none, bod := none }

/-!
### Claim C3
-/

/-- C3 (amended).  The warehouse heuristic lives only in the part_006 stock
path: `isGeneralWarehouse` is exactly "the resolved lower-cased name does not
contain \"temporal\"" — so a name containing "Temporal" is excluded (even if
it also contains "General"), while "Bodega General" and a record with no name
field are included — and `extractStockFromProduct` sums nothing from filtered
entries.  The `getCurrentStock` path that `syncCurrentMonthData` uses to
persist `stockActual` into `ventaActual` applies no warehouse filter at all:
its stock map is invariant under erasing every warehouse-name field. -/
theorem c3_filtro_bodega :
    (∀ it : StockItem, isGeneralWarehouse it = !(strHasSub (nombreBodega it) "temporal")) ∧
    (isGeneralWarehouse { bodega := some "Bodega Temporal" } = false ∧
     isGeneralWarehouse { bodega := some "Bodega General" } = true ∧
     isGeneralWarehouse {} = true) ∧
    (∀ (its : List StockItem) (acc : ℚ),
      its.foldl processStockItem acc
        = (its.filter isGeneralWarehouse).foldl processStockItem acc) ∧
    (∀ l : List StockItem, getCurrentStockMap (l.map eraseBodegas) = getCurrentStockMap l) := by
  refine ⟨?_, ⟨?_, ?_, ?_⟩, ?_, ?_⟩
  · intro it
    unfold isGeneralWarehouse
    by_cases h0 : nombreBodega it = ""
    · rw [if_pos h0, h0]
      decide
    · rw [if_neg h0]
      by_cases ht : strHasSub (nombreBodega it) "temporal" = true
      · rw [if_pos ht, ht]
        try rfl
      · rw [if_neg ht]
        rw [Bool.not_eq_true] at ht
        rw [ht]
        by_cases hg : strHasSub (nombreBodega it) "general" = true
        · rw [if_pos hg]
          try rfl
        · rw [if_neg hg]
          try rfl
  · decide
  · decide
  · decide
  · intro its acc
    induction its generalizing acc with
    | nil => rfl
    | cons it rest ih =>
      by_cases hg : isGeneralWarehouse it = true
      · rw [List.filter_cons_of_pos hg, List.foldl_cons, List.foldl_cons]
        exact ih _
      · rw [List.filter_cons_of_neg (by simp [hg]), List.foldl_cons]
        have : processStockItem acc it = acc := by
          unfold processStockItem
          rw [Bool.not_eq_true] at hg
          rw [hg]
          rfl
        rw [this]
        exact ih _
  · intro l
    unfold getCurrentStockMap
    rw [List.foldl_map]
    rfl

/-- Stock record from a warehouse named "Bodega Temporal". -/
def itemTemporal : StockItem :=
  { bodega := some "Bodega Temporal", cod_prod := some "A", saldo := some 5 }

/-- C3 counterexample.  The claim says a stock entry whose warehouse name
contains "Temporal" is excluded from `stockOnHand`, including on the sync path
persisting it into the current-month table; but `getCurrentStock` maps the
`itemTemporal` record to stock 5 for SKU "A" — `isGeneralWarehouse` would
reject it — and `syncCurrentMonthData` persists that 5 as the product's
`stockActual`. -/
theorem c3_counterexample :
    getCurrentStockMap [itemTemporal] = [("A", 5)] ∧
    isGeneralWarehouse itemTemporal = false ∧
    (syncCurrentMonthData [("A", ⟨2, 20⟩)] (getCurrentStockMap [itemTemporal])
        ⟨[⟨1, "A", "d", "f"⟩], [], [], [], 2⟩).ventasActuales
      = [⟨1, 2, 5, 20⟩] := by
  refine ⟨?_, by decide, ?_⟩
  · norm_num [getCurrentStockMap, itemTemporal, mapSet, jsOrS, jsOrQ, truthyS, valS]
    simp
  · norm_num [syncCurrentMonthData, currentSaleStep, currentStockStep, findProducto,
      getCurrentStockMap, itemTemporal, mapSet, jsOrS, jsOrQ, truthyS, valS]
    simp
    simp [currentStockStep]

/-!
## Authentication single-flight (src/unnamed/part_008 vs src/utils/auth.js)

JavaScript runs callbacks to completion between `await` points, so the
synchronous prefix of `getAuthToken` — the cached-token check, the
`authPromise` check, and (in the locked variant) starting
`authenticateWithERP()` (whose body runs synchronously through the
`axios.post` call that fires the HTTP request) and storing its promise — is
one atomic step.  A state models the module-level mutable variables plus a
counter of authentication HTTP calls; "N concurrent calls" is N atomic first
steps before the in-flight promise settles, and settling is a separate step.
-/

/-- Module state of src/unnamed/part_008: `tokenValido` abstracts
`authToken && Date.now() < tokenExpirationTime`, `authPromise` holds the id of
the in-flight authentication, `llamadasHTTP` counts authentication HTTP calls. -/
structure AuthState where
  tokenValido : Bool
  authPromise : Option Nat
  llamadasHTTP : Nat
  nextPromiseId : Nat
deriving DecidableEq

/-- Atomic synchronous prefix of `getAuthToken` (src/unnamed/part_008 lines
50-71): return the cached token, else await the in-flight promise, else start
one authentication (HTTP call fired) and publish its promise.  The returned
option is the promise the caller awaits (`none` = resolved synchronously from
cache). -/
def getAuthTokenStart (s : AuthState) : AuthState × Option Nat :=
  if s.tokenValido then (s, none)
  else match s.authPromise with
    | some p => (s, some p)
    | none =>
      ({ s with authPromise := some s.nextPromiseId,
                llamadasHTTP := s.llamadasHTTP + 1,
                nextPromiseId := s.nextPromiseId + 1 }, some s.nextPromiseId)

/-- Settling of the in-flight authentication: the `finally` (src/unnamed/
part_008 lines 67-70) clears `authPromise` whether it succeeded or failed;
success caches a valid token. -/
def authSettle (s : AuthState) (success : Bool) : AuthState :=
  { s with authPromise := none, tokenValido := success }

/-- N concurrent `getAuthToken` calls: N atomic first steps, collecting the
promise each caller awaits. -/
def runConcurrentCalls : AuthState → Nat → AuthState × List (Option Nat)
  | s, 0 => (s, [])
  | s, n + 1 =>
    let s1 := getAuthTokenStart s
    let rest := runConcurrentCalls s1.1 n
    (rest.1, s1.2 :: rest.2)

/-- Module state of src/utils/auth.js, which has no `authPromise` lock. -/
structure AuthStateSinLock where
  tokenValido : Bool
  llamadasHTTP : Nat
deriving DecidableEq

/-- Atomic synchronous prefix of the lock-free `getAuthToken`
(src/utils/auth.js lines 47-52): return the cached token, else call
`authenticateWithERP()` — every caller that misses the cache fires its own
HTTP call. -/
def getAuthTokenStartSinLock (s : AuthStateSinLock) : AuthStateSinLock :=
  if s.tokenValido then s else { s with llamadasHTTP := s.llamadasHTTP + 1 }

def runConcurrentCallsSinLock : AuthStateSinLock → Nat → AuthStateSinLock
  | s, 0 => s
  | s, n + 1 => runConcurrentCallsSinLock (getAuthTokenStartSinLock s) n

/-!
### Claim C9
-/

theorem runConcurrentCalls_inflight (n : Nat) (s : AuthState) (p : Nat)
    (hv : s.tokenValido = false) (hp : s.authPromise = some p) :
    runConcurrentCalls s n = (s, List.replicate n (some p)) := by
  induction n with
  | zero => rfl
  | succ k ih =>
    unfold runConcurrentCalls
    have hstep : getAuthTokenStart s = (s, some p) := by
      unfold getAuthTokenStart
      rw [hv, hp]
      rfl
    rw [hstep]
    simp only [ih]
    rfl

theorem runConcurrentCallsSinLock_cuenta (n : Nat) (s : AuthStateSinLock)
    (hv : s.tokenValido = false) :
    (runConcurrentCallsSinLock s n).llamadasHTTP = s.llamadasHTTP + n := by
  induction n generalizing s with
  | zero => rfl
  | succ k ih =>
    unfold runConcurrentCallsSinLock
    have hstep : getAuthTokenStartSinLock s = { s with llamadasHTTP := s.llamadasHTTP + 1 } := by
      unfold getAuthTokenStartSinLock
      rw [hv]
      rfl
    rw [hstep]
    rw [ih { tokenValido := s.tokenValido, llamadasHTTP := s.llamadasHTTP + 1 } hv]
    show s.llamadasHTTP + 1 + k = s.llamadasHTTP + (k + 1)
    omega

/-- C9 (amended).  With the `authPromise` single-flight lock
(src/unnamed/part_008), N ≥ 1 concurrent `getAuthToken` calls arriving with no
valid cached token fire exactly one authentication HTTP call, every caller
awaits that same promise (id 0), and whichever way it settles the lock is
cleared.  The src/utils/auth.js variant of `getAuthToken`, which has no lock,
fires one authentication HTTP call per caller: N calls make N requests. -/
theorem c9_single_flight (n : Nat) (hn : 1 ≤ n) :
    (runConcurrentCalls ⟨false, none, 0, 0⟩ n).1.llamadasHTTP = 1 ∧
    (∀ r ∈ (runConcurrentCalls ⟨false, none, 0, 0⟩ n).2, r = some 0) ∧
    (∀ b, (authSettle (runConcurrentCalls ⟨false, none, 0, 0⟩ n).1 b).authPromise = none) ∧
    (runConcurrentCallsSinLock ⟨false, 0⟩ n).llamadasHTTP = n := by
  obtain ⟨k, rfl⟩ : ∃ k, n = k + 1 := ⟨n - 1, by omega⟩
  have hrun : runConcurrentCalls ⟨false, none, 0, 0⟩ (k + 1)
      = (⟨false, some 0, 1, 1⟩, some 0 :: List.replicate k (some 0)) := by
    unfold runConcurrentCalls
    have hstep : getAuthTokenStart ⟨false, none, 0, 0⟩ = (⟨false, some 0, 1, 1⟩, some 0) := rfl
    rw [hstep]
    dsimp only
    rw [runConcurrentCalls_inflight k ⟨false, some 0, 1, 1⟩ 0 rfl rfl]
  refine ⟨?_, ?_, ?_, ?_⟩
  · rw [hrun]
  · rw [hrun]
    intro r hr
    rcases List.mem_cons.mp hr with rfl | h
    · rfl
    · exact List.eq_of_mem_replicate h
  · intro b
    rw [hrun]
    rfl
  · rw [runConcurrentCallsSinLock_cuenta (k + 1) ⟨false, 0⟩ rfl]
    show 0 + (k + 1) = k + 1
    omega

/-- C9 witness: three concurrent callers, one HTTP call under the lock. -/
theorem c9_single_flight_witness :
    (runConcurrentCalls ⟨false, none, 0, 0⟩ 3).1.llamadasHTTP = 1 ∧
    (runConcurrentCallsSinLock ⟨false, 0⟩ 3).llamadasHTTP = 3 :=
  ⟨(c9_single_flight 3 (by norm_num)).1, (c9_single_flight 3 (by norm_num)).2.2.2⟩

/-- C9 counterexample.  The claim covers the `getAuthToken` of
src/utils/auth.js as well; with no lock there, two concurrent calls with no
valid cached token fire two authentication HTTP calls, not one. -/
theorem c9_counterexample :
    (runConcurrentCallsSinLock ⟨false, 0⟩ 2).llamadasHTTP = 2 ∧ (2 : Nat) ≠ 1 := by
  constructor
  · rfl
  · decide

end SyncVentas
